import Mathlib

/-!
# Wallet ledger (`main.go`): embedding and verified properties

The program is a single Go file serving four HTTP endpoints over two process-wide
maps, `wallets` and `history`.  This development embeds

* the data model (`Wallet`, `OperationsHistory`, `DataMonth`, the two maps);
* the calendar helpers `BeginningOfMonth` and `EndOfMonth`, together with the part of
  Go's `time` package they call (`Time.Date`, `Time.Clock`, `Date`, `Time.AddDate`,
  `Time.After`, `Time.Before`);
* the request guard `validateRequest`;
* the code each handler runs once the payload fields have been extracted
  (`checkAccount`, `deposit`, `getBalance`, `getMonthlyStats`);
* the handlers as a whole (`checkAccountHandler`, `depositHandler`,
  `getMonthlyStatsHandler`, `getBalanceHandler`): guard, JSON decoding, the type
  assertions on the decoded payload, then the code above.  `json.Unmarshal` and
  HMAC-SHA1 are library functions and enter as parameters.

Modelling conventions.

* `float64` amounts and balances are rationals; infinities and NaN are outside the
  model.  `deposit` adds them exactly, which is what `float64` does on the small
  integers used in the examples.  Where the side on which a rounded sum falls decides
  the outcome, `depositRounded` makes the rounding of the sum explicit, and
  `roundFloat64` is the `float64` rounding (to nearest, ties to even).
* A Go map is a function from keys to `Option` values; a missing key is `none`.
* A `time.Time` is an instant counted in nanoseconds from 1970-01-01T00:00:00 in the
  zone of the process, taken to have a fixed offset (no daylight-saving transitions).
* Each call of `time.Now()` is a reading of a clock.  `deposit` reads it once and takes
  the reading as an argument; `getMonthlyStats` reads it inside its loop and takes the
  whole sequence of readings as an argument.
-/

namespace AlifWallet

/-! ## Time -/

/-- An instant: nanoseconds elapsed since 1970-01-01T00:00:00. -/
structure Time where
  nanos : Int
deriving DecidableEq, Repr

def nanosPerSecond : Int := 1000000000

def secondsPerDay : Int := 86400

def nanosPerDay : Int := secondsPerDay * nanosPerSecond

/-- `t.After(u)`: `t` is strictly later than `u`. -/
def Time.After (t u : Time) : Bool := decide (u.nanos < t.nanos)

/-- `t.Before(u)`: `t` is strictly earlier than `u`. -/
def Time.Before (t u : Time) : Bool := decide (t.nanos < u.nanos)

/-- Number of whole days from 1970-01-01 to the day containing `t` (floor). -/
def Time.dayNumber (t : Time) : Int := t.nanos / nanosPerDay

/-- Nanoseconds elapsed since the start of the day containing `t`. -/
def Time.nanosOfDay (t : Time) : Int := t.nanos % nanosPerDay

/-- Proleptic Gregorian `(year, month, day)` of the day with the given day number. -/
def civilFromDays (z : Int) : Int × Int × Int :=
  let z1 := z + 719468
  let era := z1 / 146097
  let doe := z1 - era * 146097
  let yoe := (doe - doe / 1460 + doe / 36524 - doe / 146096) / 365
  let doy := doe - (365 * yoe + yoe / 4 - yoe / 100)
  let mp := (5 * doy + 2) / 153
  let d := doy - (153 * mp + 2) / 5 + 1
  let m := if mp < 10 then mp + 3 else mp - 9
  let y := yoe + era * 400
  (if m ≤ 2 then y + 1 else y, m, d)

/-- Day number of the proleptic Gregorian date `year-month-day`, for `month` in
`1..12`; `day` may lie outside the month and then counts on linearly. -/
def daysFromCivil (year month day : Int) : Int :=
  let y := if month ≤ 2 then year - 1 else year
  let era := y / 400
  let yoe := y - era * 400
  let mp := if month > 2 then month - 3 else month + 9
  let doy := (153 * mp + 2) / 5 + day - 1
  let doe := yoe * 365 + yoe / 4 - yoe / 100 + doy
  era * 146097 + doe - 719468

/-- `t.Date()`: year, month and day of the month in which `t` occurs. -/
def Time.Date (t : Time) : Int × Int × Int := civilFromDays t.dayNumber

/-- `t.Year()`. -/
def Time.Year (t : Time) : Int := t.Date.1

/-- `t.Month()`, January being 1. -/
def Time.Month (t : Time) : Int := t.Date.2.1

/-- `t.Day()`: the day of the month. -/
def Time.Day (t : Time) : Int := t.Date.2.2

/-- `t.Clock()`: hour, minute and second within the day. -/
def Time.Clock (t : Time) : Int × Int × Int :=
  let s := t.nanosOfDay / nanosPerSecond
  (s / 3600, s % 3600 / 60, s % 60)

/-- `t.Nanosecond()`: the nanosecond offset within the second. -/
def Time.Nanosecond (t : Time) : Int := t.nanosOfDay % nanosPerSecond

/-- `time.Date(year, month, day, hour, min, sec, nsec, loc)`.  A month outside `1..12`
is normalised by carrying into the year, a day outside the month by counting on
from the first of the month (day 0 is the last day of the previous month). -/
def Date (year month day hour min sec nsec : Int) : Time :=
  let m0 := month - 1
  let y := year + m0 / 12
  let m := m0 % 12 + 1
  let days := daysFromCivil y m 1 + (day - 1)
  ⟨(days * secondsPerDay + hour * 3600 + min * 60 + sec) * nanosPerSecond + nsec⟩

/-- `t.AddDate(years, months, days)`: the date fields are shifted and handed to `Date`
with the time of day of `t`. -/
def Time.AddDate (t : Time) (years months days : Int) : Time :=
  let (year, month, day) := t.Date
  let (hour, min, sec) := t.Clock
  AlifWallet.Date (year + years) (month + months) (day + days) hour min sec t.Nanosecond

/-- `BeginningOfMonth` (main.go:143-145). -/
def BeginningOfMonth (date : Time) : Time :=
  date.AddDate 0 0 (-date.Day + 1)

/-- `EndOfMonth` (main.go:147-149). -/
def EndOfMonth (date : Time) : Time :=
  date.AddDate 0 1 (-date.Day)

/-- Leap years of the Gregorian calendar. -/
def isLeap (year : Int) : Bool :=
  decide (year % 4 = 0 ∧ (year % 100 ≠ 0 ∨ year % 400 = 0))

/-- The number of days of `month` (1 to 12) of `year` in the Gregorian calendar. -/
def daysIn (year month : Int) : Int :=
  if month = 2 then (if isLeap year then 29 else 28)
  else if month = 4 ∨ month = 6 ∨ month = 9 ∨ month = 11 then 30
  else 31

/-! ## Data model (main.go:13-32) -/

/-- `Wallet` (main.go:14-18). -/
structure Wallet where
  ID : String
  Identified : Bool
  Balance : ℚ
deriving DecidableEq, Repr

/-- `OperationsHistory` (main.go:20-24). -/
structure OperationsHistory where
  ID : String
  Date : Time
  Amount : ℚ
deriving DecidableEq, Repr

/-- `DataMonth` (main.go:26-29). -/
structure DataMonth where
  Count : Nat
  Amount : ℚ
deriving DecidableEq, Repr

/-- The two package-level maps (main.go:31-32). -/
structure Store where
  wallets : String → Option Wallet
  history : String → Option (List OperationsHistory)

/-- The assignment `m[k] = v` on a map. -/
def mapSet {β : Type} (m : String → Option β) (k : String) (v : β) : String → Option β :=
  fun k' => if k' = k then some v else m k'

/-- The read `m[k]` of a slice-valued map: a missing key reads as the nil slice. -/
def sliceAt (m : String → Option (List OperationsHistory)) (k : String) :
    List OperationsHistory :=
  (m k).getD []

/-! ## Responses -/

/-- What a handler writes to the response body. -/
inductive Body where
  /-- Literal text. -/
  | text (s : String)
  /-- The rendering of `"Wallet %s deposited with %f"`. -/
  | deposited (walletID : String) (amount : ℚ)
  /-- The rendering of `fmt.Sprint(balance)`. -/
  | balance (b : ℚ)
  /-- The JSON encoding of a `DataMonth`. -/
  | stats (d : DataMonth)
deriving DecidableEq, Repr

/-- A response: status code and body. -/
structure Response where
  status : Nat
  body : Body
deriving DecidableEq, Repr

/-- `http.Error(w, msg, code)`: the status is `code`, the body is `msg` and a newline. -/
def httpError (msg : String) (code : Nat) : Response :=
  ⟨code, Body.text (msg ++ "\n")⟩

/-- A handler that writes a body without setting a status answers 200. -/
def httpOK (b : Body) : Response := ⟨200, b⟩

/-! ## The handlers, after the payload fields have been extracted -/

/-- The cap computed at main.go:99-102. -/
def maxBalance (wallet : Wallet) : ℚ :=
  if !wallet.Identified then 10000 else 100000

/-- `checkAccountHandler`, main.go:68-73. -/
def checkAccount (walletID : String) (s : Store) : Response × Store :=
  match s.wallets walletID with
  | some _ => (httpOK (Body.text ("Wallet " ++ walletID ++ " exists")), s)
  | none => (httpError "Wallet does not exist" 404, s)

/-- `depositHandler`, main.go:93-115; `now` is the reading of `time.Now()` at line 114. -/
def deposit (walletID : String) (amount : ℚ) (now : Time) (s : Store) : Response × Store :=
  match s.wallets walletID with
  | none => (httpError "Wallet does not exist" 404, s)
  | some wallet =>
    if wallet.Balance + amount > maxBalance wallet then
      (httpError "Exceeds maximum balance" 400, s)
    else
      let wallet1 : Wallet := { wallet with Balance := wallet.Balance + amount }
      let wallets1 := mapSet s.wallets walletID wallet1
      let history1 :=
        match s.history walletID with
        | some _ => s.history
        | none => mapSet s.history walletID []
      let history2 := mapSet history1 walletID
        (sliceAt history1 walletID ++ [{ Amount := amount, ID := walletID, Date := now }])
      (httpOK (Body.deposited walletID amount), ⟨wallets1, history2⟩)

/-- The integer nearest to `m`, a tie going to the even neighbour. -/
def roundHalfEven (m : ℚ) : Int :=
  if m - ⌊m⌋ < 1 / 2 then ⌊m⌋
  else if 1 / 2 < m - ⌊m⌋ then ⌊m⌋ + 1
  else if ⌊m⌋ % 2 = 0 then ⌊m⌋
  else ⌊m⌋ + 1

/-- The spacing of the `float64` values around a magnitude `a`: `2 ^ (e - 52)` for
`2 ^ e ≤ a < 2 ^ (e + 1)` (53 significant bits), and `2 ^ (-1074)` below `2 ^ (-1022)`. -/
def float64Ulp (a : ℚ) : ℚ :=
  (2 : ℚ) ^ (max (Int.log 2 a) (-1022) - 52)

/-- The `float64` nearest to `q`, ties to even (the IEEE 754 default rounding Go uses),
for `q` below the overflow threshold `2 ^ 1024`. -/
def roundFloat64 (q : ℚ) : ℚ :=
  roundHalfEven (q / float64Ulp |q|) * float64Ulp |q|

/-- `depositHandler`, main.go:93-115, with the rounding of the `float64` sum explicit:
`fl` maps the exact sum `wallet.Balance + amount` to the value the addition yields
(`roundFloat64` for `float64`).  The sum tested at line 103 and the sum stored at
line 108 are the same rounded value.  `deposit` is the case of an exact sum. -/
def depositRounded (fl : ℚ → ℚ) (walletID : String) (amount : ℚ) (now : Time) (s : Store) :
    Response × Store :=
  match s.wallets walletID with
  | none => (httpError "Wallet does not exist" 404, s)
  | some wallet =>
    if fl (wallet.Balance + amount) > maxBalance wallet then
      (httpError "Exceeds maximum balance" 400, s)
    else
      let wallet1 : Wallet := { wallet with Balance := fl (wallet.Balance + amount) }
      let wallets1 := mapSet s.wallets walletID wallet1
      let history1 :=
        match s.history walletID with
        | some _ => s.history
        | none => mapSet s.history walletID []
      let history2 := mapSet history1 walletID
        (sliceAt history1 walletID ++ [{ Amount := amount, ID := walletID, Date := now }])
      (httpOK (Body.deposited walletID amount), ⟨wallets1, history2⟩)

/-- The loop of `getMonthlyStatsHandler`, main.go:134-139.  `clock k` is the `k`-th
reading of `time.Now()` made by the loop; the second reading of an iteration is made
only when the first comparison holds. -/
def monthlyLoop (clock : Nat → Time) :
    List OperationsHistory → Nat → List OperationsHistory → ℚ → List OperationsHistory × ℚ
  | [], _, res, summ => (res, summ)
  | h :: hs, k, res, summ =>
    if h.Date.After (BeginningOfMonth (clock k)) then
      if h.Date.Before (EndOfMonth (clock (k + 1))) then
        monthlyLoop clock hs (k + 2) (res ++ [h]) (summ + h.Amount)
      else
        monthlyLoop clock hs (k + 2) res summ
    else
      monthlyLoop clock hs (k + 1) res summ

/-- `getMonthlyStatsHandler`, main.go:131-140. -/
def getMonthlyStats (walletID : String) (clock : Nat → Time) (s : Store) : Response × Store :=
  let out := monthlyLoop clock (sliceAt s.history walletID) 0 [] 0
  (httpOK (Body.stats { Amount := out.2, Count := out.1.length }), s)

/-- `getBalanceHandler`, main.go:164-166: a missing key reads as the zero `Wallet`. -/
def getBalance (walletID : String) (s : Store) : Response × Store :=
  let wallet := (s.wallets walletID).getD { ID := "", Identified := false, Balance := 0 }
  (httpOK (Body.balance wallet.Balance), s)

/-! ## The request guard (main.go:170-196) -/

/-- The parts of an `http.Request` the guard looks at: the two headers (an absent
header reads as the empty string) and the bytes the body stream would deliver. -/
structure Request where
  userID : String
  digest : String
  rawBody : List UInt8

/-- The key at main.go:185, `[]byte("your-secret-key")`. -/
def secretKey : List UInt8 := "your-secret-key".toList.map fun c => c.toNat.toUInt8

/-- `json.Marshal(r.Body)` (main.go:179).  `r.Body` is the stream handle of the request,
an `io.ReadCloser` whose concrete type has no exported field: the encoder renders the
handle as the empty JSON object, the two bytes `{}`, reads nothing from the stream and
reports no error. -/
def jsonMarshalBody (_r : Request) : Except String (List UInt8) :=
  .ok [0x7b, 0x7d]

/-- One lower-case hexadecimal digit. -/
def hexDigit (n : Nat) : Char := "0123456789abcdef".toList.getD n '0'

/-- `hex.EncodeToString`. -/
def hexEncodeToString (bs : List UInt8) : String :=
  String.mk (bs.flatMap fun b => [hexDigit (b.toNat / 16), hexDigit (b.toNat % 16)])

/-- `validateRequest` (main.go:170-196).  `hmacSha1 key msg` stands for the 20 bytes
`hmac.New(sha1.New, key)` yields after `msg` has been written to it.  The result is the
byte slice handed back on success, or the error response written on failure. -/
def validateRequest (hmacSha1 : List UInt8 → List UInt8 → List UInt8) (r : Request) :
    Except Response (List UInt8) :=
  if r.userID = "" ∨ r.digest = "" then
    .error (httpError "Missing authentication headers" 401)
  else
    match jsonMarshalBody r with
    | .error _ => .error (httpError "Error reading request body" 500)
    | .ok body =>
      let expectedDigest := hexEncodeToString (hmacSha1 secretKey body)
      if r.digest ≠ expectedDigest then
        .error (httpError "Invalid digest" 401)
      else
        .ok body

/-! ## The handlers as a whole (main.go:50-167) -/

/-- A value decoded by `json.Unmarshal` into an `interface{}`: `nil`, `bool`, `float64`,
`string`, `[]interface{}` or `map[string]interface{}`. -/
inductive JValue where
  | null
  | bool (b : Bool)
  | number (x : ℚ)
  | string (s : String)
  | array (xs : List JValue)
  | object (kvs : List (String × JValue))

/-- How a handler ends: it returns after writing a response, or a failed type assertion
makes it abort with a run-time fault before anything is written. -/
inductive Outcome where
  | wrote (r : Response)
  | fault

/-- The type assertion `data[key].(string)`: it yields the string when the key holds
one and fails when the key is missing or holds anything else. -/
def assertString (data : String → Option JValue) (key : String) : Option String :=
  match data key with
  | some (.string v) => some v
  | _ => none

/-- The type assertion `data[key].(float64)`. -/
def assertFloat64 (data : String → Option JValue) (key : String) : Option ℚ :=
  match data key with
  | some (.number x) => some x
  | _ => none

/-- `depositHandler` from the decoded payload on (main.go:90-115). -/
def depositPayload (data : String → Option JValue) (now : Time) (s : Store) :
    Outcome × Store :=
  match assertString data "wallet_id" with
  | none => (.fault, s)
  | some walletID =>
    match assertFloat64 data "amount" with
    | none => (.fault, s)
    | some amount => (.wrote (deposit walletID amount now s).1, (deposit walletID amount now s).2)

/-- `getMonthlyStatsHandler` from the decoded payload on (main.go:131-140). -/
def getMonthlyStatsPayload (data : String → Option JValue) (clock : Nat → Time) (s : Store) :
    Outcome × Store :=
  match assertString data "wallet_id" with
  | none => (.fault, s)
  | some walletID =>
    (.wrote (getMonthlyStats walletID clock s).1, (getMonthlyStats walletID clock s).2)

/-- `getBalanceHandler` from the decoded payload on (main.go:164-166). -/
def getBalancePayload (data : String → Option JValue) (s : Store) : Outcome × Store :=
  match assertString data "wallet_id" with
  | none => (.fault, s)
  | some walletID => (.wrote (getBalance walletID s).1, (getBalance walletID s).2)

/-- `depositHandler` (main.go:76-116).  `unmarshal` stands for `json.Unmarshal` into a
`map[string]interface{}`, `none` being a decoding error. -/
def depositHandler (hmacSha1 : List UInt8 → List UInt8 → List UInt8)
    (unmarshal : List UInt8 → Option (String → Option JValue))
    (r : Request) (now : Time) (s : Store) : Outcome × Store :=
  match validateRequest hmacSha1 r with
  | .error resp => (.wrote resp, s)
  | .ok body =>
    match unmarshal body with
    | none => (.wrote (httpError "Invalid JSON data" 400), s)
    | some data => depositPayload data now s

/-- `getMonthlyStatsHandler` (main.go:118-141). -/
def getMonthlyStatsHandler (hmacSha1 : List UInt8 → List UInt8 → List UInt8)
    (unmarshal : List UInt8 → Option (String → Option JValue))
    (r : Request) (clock : Nat → Time) (s : Store) : Outcome × Store :=
  match validateRequest hmacSha1 r with
  | .error resp => (.wrote resp, s)
  | .ok body =>
    match unmarshal body with
    | none => (.wrote (httpError "Invalid JSON data" 400), s)
    | some data => getMonthlyStatsPayload data clock s

/-- `getBalanceHandler` (main.go:151-167). -/
def getBalanceHandler (hmacSha1 : List UInt8 → List UInt8 → List UInt8)
    (unmarshal : List UInt8 → Option (String → Option JValue))
    (r : Request) (s : Store) : Outcome × Store :=
  match validateRequest hmacSha1 r with
  | .error resp => (.wrote resp, s)
  | .ok body =>
    match unmarshal body with
    | none => (.wrote (httpError "Invalid JSON data" 400), s)
    | some data => getBalancePayload data s

/-- `checkAccountHandler` (main.go:50-74).  `method` is `r.Method`; `unmarshalStrings`
stands for `json.Unmarshal` into a `map[string]string`, in which a value that is not a
string is a decoding error; a missing key reads as the empty string. -/
def checkAccountHandler (hmacSha1 : List UInt8 → List UInt8 → List UInt8)
    (unmarshalStrings : List UInt8 → Option (String → Option String))
    (method : String) (r : Request) (s : Store) : Outcome × Store :=
  if method ≠ "POST" then
    (.wrote (httpError "Only POST requests are supported" 405), s)
  else
    match validateRequest hmacSha1 r with
    | .error resp => (.wrote resp, s)
    | .ok body =>
      match unmarshalStrings body with
      | none => (.wrote (httpError "Invalid JSON data" 400), s)
      | some data =>
        (.wrote (checkAccount ((data "wallet_id").getD "") s).1,
          (checkAccount ((data "wallet_id").getD "") s).2)

/-! ## Sequences of operations -/

/-- One request to the ledger, with the payload fields and clock readings it uses. -/
inductive Op where
  | checkAccount (walletID : String)
  | deposit (walletID : String) (amount : ℚ) (now : Time)
  | getBalance (walletID : String)
  | getMonthlyStats (walletID : String) (clock : Nat → Time)

/-- The handler an operation runs. -/
def Op.apply : Op → Store → Response × Store
  | .checkAccount walletID, s => AlifWallet.checkAccount walletID s
  | .deposit walletID amount now, s => AlifWallet.deposit walletID amount now s
  | .getBalance walletID, s => AlifWallet.getBalance walletID s
  | .getMonthlyStats walletID clock, s => AlifWallet.getMonthlyStats walletID clock s

/-- The store after a list of operations has run one after another. -/
def run (ops : List Op) (s : Store) : Store :=
  ops.foldl (fun st op => (op.apply st).2) s

/-- Every stored wallet is within its cap. -/
def withinCap (s : Store) : Prop :=
  ∀ walletID w, s.wallets walletID = some w → w.Balance ≤ maxBalance w

/-- Every stored balance is at least 0 and every recorded amount is above 0. -/
def nonNegative (s : Store) : Prop :=
  (∀ walletID w, s.wallets walletID = some w → 0 ≤ w.Balance) ∧
  (∀ walletID e, e ∈ sliceAt s.history walletID → 0 < e.Amount)

/-- Every deposit in the list carries an amount above 0. -/
def positiveDeposits (ops : List Op) : Prop :=
  ∀ walletID a now, Op.deposit walletID a now ∈ ops → 0 < a

/-- The number of deposits on `walletID` answered with status 200 while `ops` run one
after another from `s`. -/
def acceptedOn (walletID : String) : List Op → Store → Nat
  | [], _ => 0
  | op :: ops, s =>
    (match op with
      | .deposit target _ _ =>
        if target = walletID ∧ (op.apply s).1.status = 200 then 1 else 0
      | _ => 0) + acceptedOn walletID ops (op.apply s).2

/-- The amounts of a history added up in insertion order, starting from 0. -/
def sumAmounts (l : List OperationsHistory) : ℚ :=
  l.foldl (fun acc e => acc + e.Amount) 0

/-! ## Concrete stores and instants used in the examples -/

/-- A store holding the identified wallet `w1` and the unidentified wallet `w2`, with the
given balances and no history. -/
def twoWallets (b1 b2 : ℚ) : Store where
  wallets := fun k =>
    if k = "w1" then some { ID := "w1", Identified := true, Balance := b1 }
    else if k = "w2" then some { ID := "w2", Identified := false, Balance := b2 }
    else none
  history := fun _ => none

/-- The store `s` with the history of `walletID` set to `entries`. -/
def withHistory (s : Store) (walletID : String) (entries : List OperationsHistory) : Store :=
  { s with history := mapSet s.history walletID entries }

/-- The 29 bytes of a deposit payload naming wallet `w1` and the amount 5. -/
def sampleBody : List UInt8 :=
  [0x7b, 0x22, 0x77, 0x61, 0x6c, 0x6c, 0x65, 0x74, 0x5f, 0x69, 0x64, 0x22, 0x3a, 0x22,
   0x77, 0x31, 0x22, 0x2c, 0x22, 0x61, 0x6d, 0x6f, 0x75, 0x6e, 0x74, 0x22, 0x3a, 0x35, 0x7d]

/-- A request carrying `sampleBody` and, as digest, the hex encoding of the bytes `{}`. -/
def sampleRequest : Request :=
  { userID := "u1", digest := "7b7d", rawBody := sampleBody }

/-- The instant `sec` seconds after 1970-01-01T00:00:00. -/
def atSecond (sec : Int) : Time := ⟨sec * nanosPerSecond⟩

/-! ## Shared lemmas -/

theorem mapSet_same {β : Type} (m : String → Option β) (k : String) (v : β) :
    mapSet m k v k = some v := by
  simp [mapSet]

theorem mapSet_other {β : Type} (m : String → Option β) (k k' : String) (v : β)
    (h : k' ≠ k) : mapSet m k v k' = m k' := by
  simp [mapSet, h]

/-- The three outcomes of `deposit`, by the branch taken. -/
theorem deposit_absent (s : Store) (walletID : String) (amount : ℚ) (now : Time)
    (h : s.wallets walletID = none) :
    deposit walletID amount now s = (httpError "Wallet does not exist" 404, s) := by
  simp [deposit, h]

theorem deposit_over (s : Store) (walletID : String) (w : Wallet) (amount : ℚ) (now : Time)
    (h : s.wallets walletID = some w) (hover : w.Balance + amount > maxBalance w) :
    deposit walletID amount now s = (httpError "Exceeds maximum balance" 400, s) := by
  simp [deposit, h, hover]

theorem deposit_status_ok (s : Store) (walletID : String) (w : Wallet) (amount : ℚ)
    (now : Time) (h : s.wallets walletID = some w)
    (hfit : w.Balance + amount ≤ maxBalance w) :
    (deposit walletID amount now s).1 = httpOK (Body.deposited walletID amount) := by
  simp [deposit, h, not_lt.mpr hfit]

theorem deposit_wallets_ok (s : Store) (walletID : String) (w : Wallet) (amount : ℚ)
    (now : Time) (h : s.wallets walletID = some w)
    (hfit : w.Balance + amount ≤ maxBalance w) :
    (deposit walletID amount now s).2.wallets =
      mapSet s.wallets walletID { w with Balance := w.Balance + amount } := by
  simp [deposit, h, not_lt.mpr hfit]

theorem deposit_history_ok (s : Store) (walletID : String) (w : Wallet) (amount : ℚ)
    (now : Time) (h : s.wallets walletID = some w)
    (hfit : w.Balance + amount ≤ maxBalance w) :
    (deposit walletID amount now s).2.history =
      mapSet s.history walletID
        (sliceAt s.history walletID ++ [{ Amount := amount, ID := walletID, Date := now }]) := by
  funext k
  cases hh : s.history walletID with
  | none =>
    by_cases hk : k = walletID <;>
      simp [deposit, h, not_lt.mpr hfit, hh, mapSet, sliceAt, hk]
  | some l =>
    by_cases hk : k = walletID <;>
      simp [deposit, h, not_lt.mpr hfit, hh, mapSet, sliceAt, hk]

/-- A response of `deposit` with status 200 comes from the accepting branch. -/
theorem deposit_ok_inv (s : Store) (walletID : String) (amount : ℚ) (now : Time)
    (h : (deposit walletID amount now s).1.status = 200) :
    ∃ w, s.wallets walletID = some w ∧ w.Balance + amount ≤ maxBalance w := by
  cases hw : s.wallets walletID with
  | none => rw [deposit_absent s walletID amount now hw] at h; simp [httpError] at h
  | some w =>
    refine ⟨w, rfl, ?_⟩
    by_contra hover
    rw [deposit_over s walletID w amount now hw (not_le.mp hover)] at h
    simp [httpError] at h

theorem deposit_withinCap (s : Store) (walletID : String) (amount : ℚ) (now : Time)
    (hs : withinCap s) : withinCap (deposit walletID amount now s).2 := by
  cases hw : s.wallets walletID with
  | none => rw [deposit_absent s walletID amount now hw]; exact hs
  | some w =>
    by_cases hfit : w.Balance + amount ≤ maxBalance w
    · intro k v hv
      rw [deposit_wallets_ok s walletID w amount now hw hfit] at hv
      by_cases hk : k = walletID
      · subst hk
        rw [mapSet_same] at hv
        cases hv
        simpa [maxBalance] using hfit
      · rw [mapSet_other _ _ _ _ hk] at hv
        exact hs k v hv
    · rw [deposit_over s walletID w amount now hw (not_le.mp hfit)]; exact hs

theorem apply_withinCap (op : Op) (s : Store) (hs : withinCap s) :
    withinCap (op.apply s).2 := by
  cases op with
  | checkAccount walletID =>
    simp only [Op.apply, checkAccount]
    cases s.wallets walletID <;> exact hs
  | deposit walletID amount now => exact deposit_withinCap s walletID amount now hs
  | getBalance walletID => exact hs
  | getMonthlyStats walletID clock => exact hs

theorem run_withinCap (ops : List Op) (s : Store) (hs : withinCap s) :
    withinCap (run ops s) := by
  induction ops generalizing s with
  | nil => exact hs
  | cons op ops ih => exact ih _ (apply_withinCap op s hs)

theorem twoWallets_withinCap (b1 b2 : ℚ) (h1 : b1 ≤ 100000) (h2 : b2 ≤ 10000) :
    withinCap (twoWallets b1 b2) := by
  intro k w hw
  by_cases hk1 : k = "w1"
  · simp [twoWallets, hk1] at hw
    subst hw
    simpa [maxBalance] using h1
  · by_cases hk2 : k = "w2"
    · simp [twoWallets, hk2] at hw
      subst hw
      simpa [maxBalance] using h2
    · simp [twoWallets, hk1, hk2] at hw

/-! ## Deposit and the balance cap -/

/-- C1. After a deposit that was accepted (status 200) the target wallet is stored with
a balance of at most its cap, 100000 when identified and 10000 otherwise, whatever the
balance was before; and from a store in which every wallet is within its cap, every
store reached by a sequence of checkAccount, deposit, getBalance and getMonthlyStats
operations has every wallet within its cap. -/
theorem deposit_keeps_balance_within_cap :
    (∀ (s : Store) (walletID : String) (amount : ℚ) (now : Time),
      (deposit walletID amount now s).1.status = 200 →
      ∃ w, (deposit walletID amount now s).2.wallets walletID = some w ∧
        w.Balance ≤ (if w.Identified then 100000 else 10000)) ∧
    (∀ (s : Store) (ops : List Op), withinCap s → withinCap (run ops s)) := by
  refine ⟨?_, fun s ops hs => run_withinCap ops s hs⟩
  intro s walletID amount now h
  obtain ⟨w, hw, hfit⟩ := deposit_ok_inv s walletID amount now h
  refine ⟨{ w with Balance := w.Balance + amount }, ?_, ?_⟩
  · rw [deposit_wallets_ok s walletID w amount now hw hfit, mapSet_same]
  · cases hi : w.Identified <;> simpa [maxBalance, hi] using hfit

theorem deposit_keeps_balance_within_cap_witness :
    (deposit "w2" 5000 (atSecond 0) (twoWallets 0 5000)).1.status = 200 ∧
    (∃ w, (deposit "w2" 5000 (atSecond 0) (twoWallets 0 5000)).2.wallets "w2" = some w ∧
      w.Balance ≤ (if w.Identified then 100000 else 10000)) ∧
    withinCap (twoWallets 0 5000) ∧
    withinCap (run [Op.deposit "w2" 5000 (atSecond 0), Op.getBalance "w2",
      Op.deposit "w2" 1 (atSecond 1), Op.checkAccount "w1"] (twoWallets 0 5000)) :=
  have h200 : (deposit "w2" 5000 (atSecond 0) (twoWallets 0 5000)).1.status = 200 := by
    rw [deposit_status_ok _ "w2" { ID := "w2", Identified := false, Balance := 5000 } 5000 _
      (by simp [twoWallets]) (by norm_num [maxBalance])]
    rfl
  have hcap : withinCap (twoWallets 0 5000) :=
    twoWallets_withinCap 0 5000 (by norm_num) (by norm_num)
  ⟨h200, deposit_keeps_balance_within_cap.1 _ _ _ _ h200, hcap,
    deposit_keeps_balance_within_cap.2 _ _ hcap⟩

/-- C2. For an existing wallet and a positive amount with balance + amount at most the
cap (equality included), deposit answers 200 with the deposit message, the wallet is
stored with the old balance plus the amount and its other fields unchanged, and the
wallet's history is the old history followed by exactly one new entry carrying the
wallet id, the amount and the clock reading. -/
theorem deposit_accepted_post (s : Store) (walletID : String) (w : Wallet) (a : ℚ)
    (now : Time) (hw : s.wallets walletID = some w) (_ha : 0 < a)
    (hfit : w.Balance + a ≤ (if w.Identified then 100000 else 10000)) :
    (deposit walletID a now s).1 = ⟨200, Body.deposited walletID a⟩ ∧
    (deposit walletID a now s).2.wallets walletID =
      some { ID := w.ID, Identified := w.Identified, Balance := w.Balance + a } ∧
    sliceAt (deposit walletID a now s).2.history walletID =
      sliceAt s.history walletID ++ [{ ID := walletID, Date := now, Amount := a }] := by
  have hfit1 : w.Balance + a ≤ maxBalance w := by
    cases hi : w.Identified <;> simpa [maxBalance, hi] using hfit
  refine ⟨?_, ?_, ?_⟩
  · rw [deposit_status_ok s walletID w a now hw hfit1]; rfl
  · rw [deposit_wallets_ok s walletID w a now hw hfit1, mapSet_same]
  · rw [deposit_history_ok s walletID w a now hw hfit1]
    simp [sliceAt, mapSet_same]

theorem deposit_accepted_post_witness :
    (deposit "w2" 5000 (atSecond 7) (twoWallets 0 5000)).1 =
      ⟨200, Body.deposited "w2" 5000⟩ ∧
    (deposit "w2" 5000 (atSecond 7) (twoWallets 0 5000)).2.wallets "w2" =
      some { ID := "w2", Identified := false, Balance := 5000 + 5000 } ∧
    sliceAt (deposit "w2" 5000 (atSecond 7) (twoWallets 0 5000)).2.history "w2" =
      sliceAt (twoWallets 0 5000).history "w2" ++
        [{ ID := "w2", Date := atSecond 7, Amount := 5000 }] :=
  deposit_accepted_post (twoWallets 0 5000) "w2"
    { ID := "w2", Identified := false, Balance := 5000 } 5000 (atSecond 7)
    (by simp [twoWallets]) (by norm_num) (by norm_num)

/-- With an exact sum `depositRounded` is `deposit`. -/
theorem depositRounded_id (walletID : String) (amount : ℚ) (now : Time) (s : Store) :
    depositRounded id walletID amount now s = deposit walletID amount now s := rfl

/-- The accepting branch of `depositRounded`. -/
theorem depositRounded_ok (fl : ℚ → ℚ) (s : Store) (walletID : String) (w : Wallet)
    (amount : ℚ) (now : Time) (h : s.wallets walletID = some w)
    (hfit : fl (w.Balance + amount) ≤ maxBalance w) :
    (depositRounded fl walletID amount now s).1 = httpOK (Body.deposited walletID amount) ∧
    (depositRounded fl walletID amount now s).2.wallets =
      mapSet s.wallets walletID { w with Balance := fl (w.Balance + amount) } ∧
    (depositRounded fl walletID amount now s).2.history =
      mapSet s.history walletID
        (sliceAt s.history walletID ++ [{ Amount := amount, ID := walletID, Date := now }]) := by
  refine ⟨?_, ?_, ?_⟩
  · simp [depositRounded, h, not_lt.mpr hfit]
  · simp [depositRounded, h, not_lt.mpr hfit]
  · funext k
    cases hh : s.history walletID with
    | none =>
      by_cases hk : k = walletID <;>
        simp [depositRounded, h, not_lt.mpr hfit, hh, mapSet, sliceAt, hk]
    | some l =>
      by_cases hk : k = walletID <;>
        simp [depositRounded, h, not_lt.mpr hfit, hh, mapSet, sliceAt, hk]

/-- The spacing of the `float64` values in the binade `2 ^ e ≤ a < 2 ^ (e + 1)`. -/
theorem float64Ulp_eq (a : ℚ) (e : Int) (ha : 0 < a) (h1 : (2 : ℚ) ^ e ≤ a)
    (h2 : a < (2 : ℚ) ^ (e + 1)) (he : -1022 ≤ e) : float64Ulp a = (2 : ℚ) ^ (e - 52) := by
  have hlog : Int.log 2 a = e := by
    have hb : 1 < (2 : ℕ) := by norm_num
    have h3 : e ≤ Int.log 2 a := by
      rw [← Int.zpow_le_iff_le_log hb ha]
      simpa using h1
    have h4 : Int.log 2 a < e + 1 := by
      rw [← Int.lt_zpow_iff_log_lt hb ha]
      simpa using h2
    omega
  rw [float64Ulp, hlog, max_eq_left he]

/-- A number less than half a unit above an integer rounds to that integer. -/
theorem roundHalfEven_down (m : ℚ) (f : Int) (h1 : (f : ℚ) ≤ m) (h2 : m < f + 1 / 2) :
    roundHalfEven m = f := by
  have hf : ⌊m⌋ = f := by
    rw [Int.floor_eq_iff]
    exact ⟨h1, by linarith⟩
  rw [roundHalfEven, hf, if_pos (by linarith)]

/-- In `float64`, 10000 + 2⁻⁴⁴ is 10000: the values around 10000 are 2⁻³⁹ apart. -/
theorem roundFloat64_near_10000 : roundFloat64 (10000 + 1 / 2 ^ 44) = 10000 := by
  have hu : float64Ulp |(10000 : ℚ) + 1 / 2 ^ 44| = (2 : ℚ) ^ ((13 : Int) - 52) := by
    apply float64Ulp_eq
    · norm_num [abs_of_pos]
    · rw [abs_of_pos (by norm_num)]; norm_num
    · rw [abs_of_pos (by norm_num)]; norm_num
    · norm_num
  rw [roundFloat64, hu, roundHalfEven_down _ (10000 * 2 ^ 39) (by norm_num) (by norm_num)]
  norm_num

/-- In `float64`, 99999 + 2 is 100001. -/
theorem roundFloat64_100001 : roundFloat64 (99999 + 2) = 100001 := by
  have hu : float64Ulp |(99999 : ℚ) + 2| = (2 : ℚ) ^ ((16 : Int) - 52) := by
    apply float64Ulp_eq
    · norm_num [abs_of_pos]
    · rw [abs_of_pos (by norm_num)]; norm_num
    · rw [abs_of_pos (by norm_num)]; norm_num
    · norm_num
  rw [roundFloat64, hu, roundHalfEven_down _ (100001 * 2 ^ 36) (by norm_num) (by norm_num)]
  norm_num

/-- C3, counterexample. The unidentified wallet `w2` holds 10000, its cap, and receives
2⁻⁴⁴ (the `float64` written 5.684341886080802e-14). The exact sum is above the cap,
but the `float64` sum is 10000, so the test at main.go:103 does not fire: the deposit
is answered with status 200, the balance stays 10000 and an entry is appended to the
history, which was empty. -/
theorem deposit_rounded_to_cap_is_accepted :
    (twoWallets 0 10000).wallets "w2" =
      some { ID := "w2", Identified := false, Balance := 10000 } ∧
    (10000 : ℚ) + 1 / 2 ^ 44 > 10000 ∧
    roundFloat64 (10000 + 1 / 2 ^ 44) = 10000 ∧
    (depositRounded roundFloat64 "w2" (1 / 2 ^ 44) (atSecond 7) (twoWallets 0 10000)).1 =
      ⟨200, Body.deposited "w2" (1 / 2 ^ 44)⟩ ∧
    (depositRounded roundFloat64 "w2" (1 / 2 ^ 44) (atSecond 7)
        (twoWallets 0 10000)).2.wallets "w2" =
      some { ID := "w2", Identified := false, Balance := 10000 } ∧
    sliceAt (twoWallets 0 10000).history "w2" = [] ∧
    sliceAt (depositRounded roundFloat64 "w2" (1 / 2 ^ 44) (atSecond 7)
        (twoWallets 0 10000)).2.history "w2" =
      [{ ID := "w2", Date := atSecond 7, Amount := 1 / 2 ^ 44 }] := by
  have hw : (twoWallets 0 10000).wallets "w2" =
      some { ID := "w2", Identified := false, Balance := 10000 } := by simp [twoWallets]
  have hr := roundFloat64_near_10000
  have hfit : roundFloat64 ((10000 : ℚ) + 1 / 2 ^ 44) ≤
      maxBalance { ID := "w2", Identified := false, Balance := 10000 } := by
    rw [hr]; norm_num [maxBalance]
  obtain ⟨h1, h2, h3⟩ := depositRounded_ok roundFloat64 (twoWallets 0 10000) "w2" _
    (1 / 2 ^ 44) (atSecond 7) hw hfit
  refine ⟨hw, by norm_num, hr, ?_, ?_, rfl, ?_⟩
  · rw [h1]; rfl
  · rw [h2, mapSet_same, hr]
  · rw [h3]
    simp [sliceAt, mapSet_same, twoWallets]

/-- C3, amended. For an existing wallet and an amount whose sum with the balance, as the
addition of the code yields it (the exact sum rounded by `fl`, any rounding), is above
the cap, deposit answers 400 with the text "Exceeds maximum balance" and returns the
store it was given: the wallet map and the history map are both unchanged. -/
theorem deposit_rounded_over_cap_is_noop (fl : ℚ → ℚ) (s : Store) (walletID : String)
    (w : Wallet) (a : ℚ) (now : Time) (hw : s.wallets walletID = some w)
    (hover : fl (w.Balance + a) > (if w.Identified then 100000 else 10000)) :
    depositRounded fl walletID a now s =
      (⟨400, Body.text "Exceeds maximum balance\n"⟩, s) := by
  have hover1 : fl (w.Balance + a) > maxBalance w := by
    cases hi : w.Identified <;> simpa [maxBalance, hi] using hover
  simp only [depositRounded, hw, if_pos hover1]
  rfl

theorem deposit_rounded_over_cap_is_noop_witness :
    (twoWallets 99999 0).wallets "w1" =
      some { ID := "w1", Identified := true, Balance := 99999 } ∧
    roundFloat64 (99999 + 2) > 100000 ∧
    depositRounded roundFloat64 "w1" 2 (atSecond 7) (twoWallets 99999 0) =
      (⟨400, Body.text "Exceeds maximum balance\n"⟩, twoWallets 99999 0) :=
  have hw : (twoWallets 99999 0).wallets "w1" =
      some { ID := "w1", Identified := true, Balance := 99999 } := by simp [twoWallets]
  have hover : roundFloat64 (99999 + 2) > 100000 := by
    rw [roundFloat64_100001]; norm_num
  ⟨hw, hover,
    deposit_rounded_over_cap_is_noop roundFloat64 (twoWallets 99999 0) "w1"
      { ID := "w1", Identified := true, Balance := 99999 } 2 (atSecond 7) hw hover⟩

/-! ## Non-positive amounts -/

/-- C4, counterexample. The unidentified wallet `w2` holds 100 and receives a deposit of
-50: the amount is not positive, yet the deposit is accepted with status 200, the
balance becomes 50 and an entry with amount -50 is written to the history. -/
theorem deposit_negative_amount_is_accepted :
    (-50 : ℚ) ≤ 0 ∧
    (twoWallets 0 100).wallets "w2" = some { ID := "w2", Identified := false, Balance := 100 } ∧
    (deposit "w2" (-50) (atSecond 7) (twoWallets 0 100)).1 =
      ⟨200, Body.deposited "w2" (-50)⟩ ∧
    (deposit "w2" (-50) (atSecond 7) (twoWallets 0 100)).2.wallets "w2" =
      some { ID := "w2", Identified := false, Balance := 50 } ∧
    sliceAt (twoWallets 0 100).history "w2" = [] ∧
    sliceAt (deposit "w2" (-50) (atSecond 7) (twoWallets 0 100)).2.history "w2" =
      [{ ID := "w2", Date := atSecond 7, Amount := -50 }] := by
  have hw : (twoWallets 0 100).wallets "w2" =
      some { ID := "w2", Identified := false, Balance := 100 } := by simp [twoWallets]
  have hfit : (100 : ℚ) + (-50) ≤
      maxBalance { ID := "w2", Identified := false, Balance := 100 } := by
    norm_num [maxBalance]
  refine ⟨by norm_num, hw, ?_, ?_, ?_, ?_⟩
  · rw [deposit_status_ok _ "w2" _ (-50) _ hw hfit]; rfl
  · rw [deposit_wallets_ok _ "w2" _ (-50) _ hw hfit, mapSet_same]
    norm_num
  · simp [sliceAt, twoWallets]
  · rw [deposit_history_ok _ "w2" _ (-50) _ hw hfit]
    simp [sliceAt, mapSet_same, twoWallets]

/-- C4, amended. For an existing wallet whose balance is within its cap and an amount that
is zero or negative, deposit does not reject: it answers 200 with the deposit message,
stores the wallet with balance + amount, and appends one entry with that amount to the
wallet's history. -/
theorem deposit_nonpositive_amount_post (s : Store) (walletID : String) (w : Wallet) (a : ℚ)
    (now : Time) (hw : s.wallets walletID = some w) (ha : a ≤ 0)
    (hcap : w.Balance ≤ (if w.Identified then 100000 else 10000)) :
    (deposit walletID a now s).1 = ⟨200, Body.deposited walletID a⟩ ∧
    (deposit walletID a now s).2.wallets walletID =
      some { ID := w.ID, Identified := w.Identified, Balance := w.Balance + a } ∧
    sliceAt (deposit walletID a now s).2.history walletID =
      sliceAt s.history walletID ++ [{ ID := walletID, Date := now, Amount := a }] := by
  have hfit1 : w.Balance + a ≤ maxBalance w := by
    have h1 : w.Balance ≤ maxBalance w := by
      cases hi : w.Identified <;> simpa [maxBalance, hi] using hcap
    linarith
  refine ⟨?_, ?_, ?_⟩
  · rw [deposit_status_ok s walletID w a now hw hfit1]; rfl
  · rw [deposit_wallets_ok s walletID w a now hw hfit1, mapSet_same]
  · rw [deposit_history_ok s walletID w a now hw hfit1]
    simp [sliceAt, mapSet_same]

theorem deposit_nonpositive_amount_post_witness :
    (deposit "w1" 0 (atSecond 7) (twoWallets 300 0)).1 = ⟨200, Body.deposited "w1" 0⟩ ∧
    (deposit "w1" 0 (atSecond 7) (twoWallets 300 0)).2.wallets "w1" =
      some { ID := "w1", Identified := true, Balance := 300 + 0 } ∧
    sliceAt (deposit "w1" 0 (atSecond 7) (twoWallets 300 0)).2.history "w1" =
      sliceAt (twoWallets 300 0).history "w1" ++
        [{ ID := "w1", Date := atSecond 7, Amount := 0 }] :=
  deposit_nonpositive_amount_post (twoWallets 300 0) "w1"
    { ID := "w1", Identified := true, Balance := 300 } 0 (atSecond 7)
    (by simp [twoWallets]) (le_refl 0) (by norm_num)

/-! ## The request guard -/

/-- C5, behaviour of the code. The outcome of `validateRequest` does not depend on the raw
body: replacing the body bytes by any others leaves the result unchanged, and with both
headers non-empty the request is accepted exactly when the digest header is the
hex-encoded HMAC of the two bytes `{}`, which are also the bytes handed back. -/
theorem validateRequest_ignores_raw_body
    (hmacSha1 : List UInt8 → List UInt8 → List UInt8) (r : Request) :
    (∀ b : List UInt8,
      validateRequest hmacSha1 { r with rawBody := b } = validateRequest hmacSha1 r) ∧
    validateRequest hmacSha1 r =
      (if r.userID = "" ∨ r.digest = "" then
        .error ⟨401, Body.text "Missing authentication headers\n"⟩
      else if r.digest = hexEncodeToString (hmacSha1 secretKey [0x7b, 0x7d]) then
        .ok [0x7b, 0x7d]
      else .error ⟨401, Body.text "Invalid digest\n"⟩) := by
  constructor
  · intro b
    rfl
  · unfold validateRequest jsonMarshalBody
    by_cases h1 : r.userID = "" ∨ r.digest = ""
    · simp only [h1, if_true]; rfl
    · by_cases h2 : r.digest = hexEncodeToString (hmacSha1 secretKey [0x7b, 0x7d])
      · rw [if_neg h1, if_neg h1, if_pos h2]
        simp [h2]
      · rw [if_neg h1, if_neg h1, if_neg h2]
        simp [h2, httpError]

/-! ## Monthly statistics -/

/-- With a clock that reads `now` at every call, the loop appends to `res` the entries
strictly between the two bounds, in order, and adds their amounts to `summ` in order. -/
theorem monthlyLoop_const (now : Time) (l : List OperationsHistory) (k : Nat)
    (res : List OperationsHistory) (summ : ℚ) :
    monthlyLoop (fun _ => now) l k res summ =
      (res ++ l.filter (fun h => decide ((BeginningOfMonth now).nanos < h.Date.nanos ∧
          h.Date.nanos < (EndOfMonth now).nanos)),
       (l.filter (fun h => decide ((BeginningOfMonth now).nanos < h.Date.nanos ∧
          h.Date.nanos < (EndOfMonth now).nanos))).foldl (fun acc h => acc + h.Amount) summ) := by
  induction l generalizing k res summ with
  | nil => simp [monthlyLoop]
  | cons h hs ih =>
    by_cases h1 : (BeginningOfMonth now).nanos < h.Date.nanos
    · by_cases h2 : h.Date.nanos < (EndOfMonth now).nanos
      · simp [monthlyLoop, Time.After, Time.Before, h1, h2, ih]
      · simp [monthlyLoop, Time.After, Time.Before, h1, h2, ih]
    · simp [monthlyLoop, Time.After, Time.Before, h1, ih]

/-- C6. With the clock reading `now` throughout the request, getMonthlyStats answers 200
with count = the number of entries of the wallet's history whose timestamp is strictly
after BeginningOfMonth(now) and strictly before EndOfMonth(now), and amount = the sum
of those entries' amounts accumulated in insertion order from 0, and leaves the store
as it was; a history made of one entry whose timestamp equals either bound yields
count 0 and amount 0; and a wallet with no history yields count 0 and amount 0. -/
theorem getMonthlyStats_is_filtered_aggregate :
    (∀ (s : Store) (walletID : String) (now : Time),
      getMonthlyStats walletID (fun _ => now) s =
        (⟨200, Body.stats
          { Count := ((sliceAt s.history walletID).filter (fun h =>
              decide ((BeginningOfMonth now).nanos < h.Date.nanos ∧
                h.Date.nanos < (EndOfMonth now).nanos))).length,
            Amount := ((sliceAt s.history walletID).filter (fun h =>
              decide ((BeginningOfMonth now).nanos < h.Date.nanos ∧
                h.Date.nanos < (EndOfMonth now).nanos))).foldl
                  (fun acc h => acc + h.Amount) 0 }⟩, s)) ∧
    (∀ (s : Store) (walletID : String) (now : Time) (h : OperationsHistory),
      sliceAt s.history walletID = [h] →
      (h.Date = BeginningOfMonth now ∨ h.Date = EndOfMonth now) →
      getMonthlyStats walletID (fun _ => now) s =
        (⟨200, Body.stats { Count := 0, Amount := 0 }⟩, s)) ∧
    (∀ (s : Store) (walletID : String) (clock : Nat → Time),
      sliceAt s.history walletID = [] →
      getMonthlyStats walletID clock s =
        (⟨200, Body.stats { Count := 0, Amount := 0 }⟩, s)) := by
  refine ⟨?_, ?_, ?_⟩
  · intro s walletID now
    simp [getMonthlyStats, monthlyLoop_const, httpOK]
  · intro s walletID now h hl hb
    rcases hb with hb | hb <;>
      simp [getMonthlyStats, monthlyLoop_const, httpOK, hl, hb]
  · intro s walletID clock hl
    simp [getMonthlyStats, monthlyLoop, httpOK, hl]

theorem getMonthlyStats_is_filtered_aggregate_witness :
    sliceAt (withHistory (twoWallets 5 0) "w1"
      [{ ID := "w1", Date := atSecond 1709287200, Amount := 5 }]).history "w1" =
        [{ ID := "w1", Date := atSecond 1709287200, Amount := 5 }] ∧
    ((atSecond 1709287200 = BeginningOfMonth (atSecond 1710496800)) ∨
      (atSecond 1709287200 = EndOfMonth (atSecond 1710496800))) ∧
    getMonthlyStats "w1" (fun _ => atSecond 1710496800)
      (withHistory (twoWallets 5 0) "w1"
        [{ ID := "w1", Date := atSecond 1709287200, Amount := 5 }]) =
      (⟨200, Body.stats { Count := 0, Amount := 0 }⟩,
        withHistory (twoWallets 5 0) "w1"
          [{ ID := "w1", Date := atSecond 1709287200, Amount := 5 }]) ∧
    sliceAt (twoWallets 5 0).history "w2" = [] ∧
    getMonthlyStats "w2" (fun k => atSecond (1710496800 + k)) (twoWallets 5 0) =
      (⟨200, Body.stats { Count := 0, Amount := 0 }⟩, twoWallets 5 0) :=
  have hl : sliceAt (withHistory (twoWallets 5 0) "w1"
      [{ ID := "w1", Date := atSecond 1709287200, Amount := 5 }]).history "w1" =
        [{ ID := "w1", Date := atSecond 1709287200, Amount := 5 }] := by
    simp [sliceAt, withHistory, mapSet_same]
  have hb : (atSecond 1709287200 = BeginningOfMonth (atSecond 1710496800)) ∨
      (atSecond 1709287200 = EndOfMonth (atSecond 1710496800)) := Or.inl (by decide)
  have he : sliceAt (twoWallets 5 0).history "w2" = [] := by simp [sliceAt, twoWallets]
  ⟨hl, hb, getMonthlyStats_is_filtered_aggregate.2.1 _ "w1" (atSecond 1710496800) _ hl hb,
    he, getMonthlyStats_is_filtered_aggregate.2.2 _ "w2" _ he⟩

/-- C7, behaviour of the code at the failing input. The identified wallet `w1` receives
one deposit of 5 on 2024-03-01 at 09:00:00, which is accepted and recorded. A query on
2024-03-01 at 10:00:00, and a query on 2024-03-15 at 10:00:00, both in the same
calendar month as the deposit, return count 0 and amount 0: BeginningOfMonth of either
query time is 2024-03-01 at 10:00:00, the first day of the month at the time of day of
the query, which is later than the deposit. -/
theorem getMonthlyStats_misses_deposit_in_month :
    (atSecond 1709283600).Date = (2024, 3, 1) ∧ (atSecond 1709283600).Clock = (9, 0, 0) ∧
    (atSecond 1709287200).Date = (2024, 3, 1) ∧ (atSecond 1709287200).Clock = (10, 0, 0) ∧
    (atSecond 1710496800).Date = (2024, 3, 15) ∧ (atSecond 1710496800).Clock = (10, 0, 0) ∧
    BeginningOfMonth (atSecond 1709287200) = atSecond 1709287200 ∧
    BeginningOfMonth (atSecond 1710496800) = atSecond 1709287200 ∧
    (deposit "w1" 5 (atSecond 1709283600) (twoWallets 0 0)).1.status = 200 ∧
    sliceAt (deposit "w1" 5 (atSecond 1709283600) (twoWallets 0 0)).2.history "w1" =
      [{ ID := "w1", Date := atSecond 1709283600, Amount := 5 }] ∧
    (getMonthlyStats "w1" (fun _ => atSecond 1709287200)
      (deposit "w1" 5 (atSecond 1709283600) (twoWallets 0 0)).2).1 =
      ⟨200, Body.stats { Count := 0, Amount := 0 }⟩ ∧
    (getMonthlyStats "w1" (fun _ => atSecond 1710496800)
      (deposit "w1" 5 (atSecond 1709283600) (twoWallets 0 0)).2).1 =
      ⟨200, Body.stats { Count := 0, Amount := 0 }⟩ := by
  have hb1 : BeginningOfMonth (atSecond 1709287200) = atSecond 1709287200 := by decide
  have hb2 : BeginningOfMonth (atSecond 1710496800) = atSecond 1709287200 := by decide
  have hlt : ¬ (atSecond 1709287200).nanos < (atSecond 1709283600).nanos := by decide
  have hw : (twoWallets 0 0).wallets "w1" =
      some { ID := "w1", Identified := true, Balance := 0 } := by simp [twoWallets]
  have hfit : (0 : ℚ) + 5 ≤ maxBalance { ID := "w1", Identified := true, Balance := 0 } := by
    norm_num [maxBalance]
  have hh : sliceAt (deposit "w1" 5 (atSecond 1709283600) (twoWallets 0 0)).2.history "w1" =
      [{ ID := "w1", Date := atSecond 1709283600, Amount := 5 }] := by
    rw [deposit_history_ok _ "w1" _ 5 _ hw hfit]
    simp [sliceAt, mapSet_same, twoWallets]
  refine ⟨by decide, by decide, by decide, by decide, by decide, by decide, hb1, hb2,
    ?_, hh, ?_, ?_⟩
  · rw [deposit_status_ok _ "w1" _ 5 _ hw hfit]; rfl
  · simp [getMonthlyStats, monthlyLoop_const, httpOK, hh, hb1, hlt]
  · simp [getMonthlyStats, monthlyLoop_const, httpOK, hh, hb2, hlt]

/-! ## Unknown wallets and the history ledger -/

/-- C8. For a wallet id absent from the wallet map and any amount, deposit answers 404
with the text "Wallet does not exist" and returns the store it was given: no wallet is
created for the id, and the wallet map and the history map are unchanged. -/
theorem deposit_unknown_wallet (s : Store) (walletID : String) (a : ℚ) (now : Time)
    (h : s.wallets walletID = none) :
    deposit walletID a now s = (⟨404, Body.text "Wallet does not exist\n"⟩, s) ∧
    (deposit walletID a now s).2.wallets walletID = none := by
  rw [deposit_absent s walletID a now h]
  exact ⟨rfl, h⟩

theorem deposit_unknown_wallet_witness :
    (twoWallets 0 0).wallets "ghost" = none ∧
    deposit "ghost" 5 (atSecond 7) (twoWallets 0 0) =
      (⟨404, Body.text "Wallet does not exist\n"⟩, twoWallets 0 0) ∧
    (deposit "ghost" 5 (atSecond 7) (twoWallets 0 0)).2.wallets "ghost" = none :=
  have h : (twoWallets 0 0).wallets "ghost" = none := by simp [twoWallets]
  ⟨h, deposit_unknown_wallet (twoWallets 0 0) "ghost" 5 (atSecond 7) h⟩

/-- The history of every wallet after one operation, by cases: it is the history before,
or the operation was an accepted deposit on that wallet and one entry was appended. -/
theorem apply_history (op : Op) (s : Store) (walletID : String) :
    sliceAt (op.apply s).2.history walletID = sliceAt s.history walletID ∨
    ∃ a now, op = Op.deposit walletID a now ∧ (op.apply s).1.status = 200 ∧
      sliceAt (op.apply s).2.history walletID =
        sliceAt s.history walletID ++ [{ ID := walletID, Date := now, Amount := a }] := by
  cases op with
  | checkAccount target =>
    left
    simp only [Op.apply, checkAccount]
    cases s.wallets target <;> rfl
  | getBalance target => left; rfl
  | getMonthlyStats target clock => left; rfl
  | deposit target a now =>
    simp only [Op.apply]
    cases hw : s.wallets target with
    | none => left; rw [deposit_absent s target a now hw]
    | some w =>
      by_cases hfit : w.Balance + a ≤ maxBalance w
      · by_cases hk : walletID = target
        · right
          subst hk
          refine ⟨a, now, rfl, ?_, ?_⟩
          · rw [deposit_status_ok s walletID w a now hw hfit]; rfl
          · rw [deposit_history_ok s walletID w a now hw hfit]
            simp [sliceAt, mapSet_same]
        · left
          rw [deposit_history_ok s target w a now hw hfit]
          simp [sliceAt, mapSet_other _ _ _ _ hk]
      · left; rw [deposit_over s target w a now hw (not_le.mp hfit)]

/-- C9. For every store, every operation (checkAccount, deposit, getBalance or
getMonthlyStats, whatever its outcome) and every wallet, the wallet's history before
the operation is a prefix of its history after; and whenever a wallet's history
differs after the operation, the operation was a deposit on that wallet answered with
status 200 and the history gained exactly one entry at the end. -/
theorem history_is_append_only :
    (∀ (op : Op) (s : Store) (walletID : String),
      sliceAt s.history walletID <+: sliceAt (op.apply s).2.history walletID) ∧
    (∀ (op : Op) (s : Store) (walletID : String),
      sliceAt (op.apply s).2.history walletID ≠ sliceAt s.history walletID →
      ∃ a now, op = Op.deposit walletID a now ∧ (op.apply s).1.status = 200 ∧
        sliceAt (op.apply s).2.history walletID =
          sliceAt s.history walletID ++ [{ ID := walletID, Date := now, Amount := a }]) := by
  constructor
  · intro op s walletID
    rcases apply_history op s walletID with h | ⟨a, now, _, _, h⟩
    · rw [h]
    · rw [h]; exact List.prefix_append _ _
  · intro op s walletID hne
    rcases apply_history op s walletID with h | h
    · exact absurd h hne
    · exact h

theorem history_is_append_only_witness :
    sliceAt ((Op.deposit "w2" 5000 (atSecond 7)).apply (twoWallets 0 5000)).2.history "w2" ≠
      sliceAt (twoWallets 0 5000).history "w2" ∧
    ∃ a now, Op.deposit "w2" 5000 (atSecond 7) = Op.deposit "w2" a now ∧
      ((Op.deposit "w2" 5000 (atSecond 7)).apply (twoWallets 0 5000)).1.status = 200 ∧
      sliceAt ((Op.deposit "w2" 5000 (atSecond 7)).apply (twoWallets 0 5000)).2.history "w2" =
        sliceAt (twoWallets 0 5000).history "w2" ++
          [{ ID := "w2", Date := now, Amount := a }] :=
  have hne : sliceAt ((Op.deposit "w2" 5000 (atSecond 7)).apply
      (twoWallets 0 5000)).2.history "w2" ≠ sliceAt (twoWallets 0 5000).history "w2" := by
    simp only [Op.apply]
    rw [deposit_history_ok _ "w2" { ID := "w2", Identified := false, Balance := 5000 } 5000 _
      (by simp [twoWallets]) (by norm_num [maxBalance])]
    simp [sliceAt, mapSet_same, twoWallets]
  ⟨hne, history_is_append_only.2 _ _ _ hne⟩

/-! ## The guard inside the handlers -/

/-- With an empty header the guard fails with the 401 response. -/
theorem validateRequest_missing (hmacSha1 : List UInt8 → List UInt8 → List UInt8)
    (r : Request) (h : r.userID = "" ∨ r.digest = "") :
    validateRequest hmacSha1 r =
      .error ⟨401, Body.text "Missing authentication headers\n"⟩ := by
  unfold validateRequest
  rw [if_pos h]
  rfl

/-- A successful guard hands back the two bytes `{}`. -/
theorem validateRequest_ok_body (hmacSha1 : List UInt8 → List UInt8 → List UInt8)
    (r : Request) (body : List UInt8) (h : validateRequest hmacSha1 r = .ok body) :
    body = [0x7b, 0x7d] := by
  unfold validateRequest jsonMarshalBody at h
  by_cases h1 : r.userID = "" ∨ r.digest = ""
  · rw [if_pos h1] at h
    cases h
  · rw [if_neg h1] at h
    by_cases h2 : r.digest ≠ hexEncodeToString (hmacSha1 secretKey [0x7b, 0x7d])
    · simp [h2] at h
    · simp [h2] at h
      exact h.symm

/-- C11. When the X-UserId header or the X-Digest header is empty, validateRequest fails
with 401 "Missing authentication headers" whatever the body is, and each of the four
handlers returns that response with the store it was given, for every store: nothing
is decoded, read or written. -/
theorem missing_credentials_rejected_first
    (hmacSha1 : List UInt8 → List UInt8 → List UInt8)
    (unmarshal : List UInt8 → Option (String → Option JValue))
    (unmarshalStrings : List UInt8 → Option (String → Option String))
    (r : Request) (now : Time) (clock : Nat → Time) (s : Store)
    (h : r.userID = "" ∨ r.digest = "") :
    (∀ b : List UInt8, validateRequest hmacSha1 { r with rawBody := b } =
      .error ⟨401, Body.text "Missing authentication headers\n"⟩) ∧
    depositHandler hmacSha1 unmarshal r now s =
      (.wrote ⟨401, Body.text "Missing authentication headers\n"⟩, s) ∧
    getMonthlyStatsHandler hmacSha1 unmarshal r clock s =
      (.wrote ⟨401, Body.text "Missing authentication headers\n"⟩, s) ∧
    getBalanceHandler hmacSha1 unmarshal r s =
      (.wrote ⟨401, Body.text "Missing authentication headers\n"⟩, s) ∧
    checkAccountHandler hmacSha1 unmarshalStrings "POST" r s =
      (.wrote ⟨401, Body.text "Missing authentication headers\n"⟩, s) := by
  have hv := validateRequest_missing hmacSha1 r h
  refine ⟨fun b => validateRequest_missing hmacSha1 _ h, ?_, ?_, ?_, ?_⟩
  · simp only [depositHandler, hv]
  · simp only [getMonthlyStatsHandler, hv]
  · simp only [getBalanceHandler, hv]
  · simp [checkAccountHandler, hv]

theorem missing_credentials_rejected_first_witness :
    (∀ b : List UInt8,
      validateRequest (fun _ msg => msg)
          { ({ userID := "", digest := "7b7d", rawBody := [0x7b, 0x7d] } : Request) with
            rawBody := b } =
        .error ⟨401, Body.text "Missing authentication headers\n"⟩) ∧
    depositHandler (fun _ msg => msg) (fun _ => some fun _ => none)
        { userID := "", digest := "7b7d", rawBody := [0x7b, 0x7d] } (atSecond 7)
        (twoWallets 0 0) =
      (.wrote ⟨401, Body.text "Missing authentication headers\n"⟩, twoWallets 0 0) ∧
    getMonthlyStatsHandler (fun _ msg => msg) (fun _ => some fun _ => none)
        { userID := "", digest := "7b7d", rawBody := [0x7b, 0x7d] } (fun _ => atSecond 7)
        (twoWallets 0 0) =
      (.wrote ⟨401, Body.text "Missing authentication headers\n"⟩, twoWallets 0 0) ∧
    getBalanceHandler (fun _ msg => msg) (fun _ => some fun _ => none)
        { userID := "", digest := "7b7d", rawBody := [0x7b, 0x7d] } (twoWallets 0 0) =
      (.wrote ⟨401, Body.text "Missing authentication headers\n"⟩, twoWallets 0 0) ∧
    checkAccountHandler (fun _ msg => msg) (fun _ => some fun _ => none) "POST"
        { userID := "", digest := "7b7d", rawBody := [0x7b, 0x7d] } (twoWallets 0 0) =
      (.wrote ⟨401, Body.text "Missing authentication headers\n"⟩, twoWallets 0 0) :=
  missing_credentials_rejected_first (fun _ msg => msg) (fun _ => some fun _ => none)
    (fun _ => some fun _ => none)
    { userID := "", digest := "7b7d", rawBody := [0x7b, 0x7d] } (atSecond 7)
    (fun _ => atSecond 7) (twoWallets 0 0) (Or.inl rfl)

/-- C12, behaviour of the code. Whenever validateRequest accepts a request, the slice it
returns is the two bytes `{}`, the encoding of the body stream handle, whatever raw
body the request carries; so depositHandler decodes `{}` and not the bytes the client
sent. -/
theorem validateRequest_returns_handle_encoding
    (hmacSha1 : List UInt8 → List UInt8 → List UInt8)
    (unmarshal : List UInt8 → Option (String → Option JValue))
    (r : Request) (body : List UInt8) (now : Time) (s : Store)
    (h : validateRequest hmacSha1 r = .ok body) :
    body = [0x7b, 0x7d] ∧
    depositHandler hmacSha1 unmarshal r now s =
      (match unmarshal [0x7b, 0x7d] with
        | none => (.wrote ⟨400, Body.text "Invalid JSON data\n"⟩, s)
        | some data => depositPayload data now s) := by
  have hb := validateRequest_ok_body hmacSha1 r body h
  subst hb
  refine ⟨rfl, ?_⟩
  simp only [depositHandler, h]
  cases unmarshal [0x7b, 0x7d] <;> rfl

theorem validateRequest_returns_handle_encoding_witness :
    validateRequest (fun _ msg => msg) sampleRequest = .ok [0x7b, 0x7d] ∧
    sampleRequest.rawBody ≠ [0x7b, 0x7d] ∧
    (([0x7b, 0x7d] : List UInt8) = [0x7b, 0x7d] ∧
      depositHandler (fun _ msg => msg) (fun _ => some fun _ => none) sampleRequest
          (atSecond 7) (twoWallets 0 0) =
        (match (fun _ => some fun _ => none : List UInt8 → Option (String → Option JValue))
            [0x7b, 0x7d] with
          | none => (.wrote ⟨400, Body.text "Invalid JSON data\n"⟩, twoWallets 0 0)
          | some data => depositPayload data (atSecond 7) (twoWallets 0 0))) :=
  have h : validateRequest (fun _ msg => msg) sampleRequest = .ok [0x7b, 0x7d] := by rfl
  ⟨h, by decide,
    validateRequest_returns_handle_encoding (fun _ msg => msg) (fun _ => some fun _ => none)
      sampleRequest [0x7b, 0x7d] (atSecond 7) (twoWallets 0 0) h⟩

/-! ## Signs of balances and amounts -/

/-- The wallet map after a deposit: unchanged, or the target rewritten with the sum. -/
theorem deposit_wallets_cases (s : Store) (walletID : String) (a : ℚ) (now : Time) :
    (deposit walletID a now s).2 = s ∨
    ∃ w, s.wallets walletID = some w ∧ w.Balance + a ≤ maxBalance w ∧
      (deposit walletID a now s).2.wallets =
        mapSet s.wallets walletID { w with Balance := w.Balance + a } := by
  cases hw : s.wallets walletID with
  | none => left; rw [deposit_absent s walletID a now hw]
  | some w =>
    by_cases hfit : w.Balance + a ≤ maxBalance w
    · right
      exact ⟨w, rfl, hfit, deposit_wallets_ok s walletID w a now hw hfit⟩
    · left; rw [deposit_over s walletID w a now hw (not_le.mp hfit)]

/-- The three queries hand back the store they were given. -/
theorem query_store (s : Store) (walletID : String) (clock : Nat → Time) :
    (checkAccount walletID s).2 = s ∧ (getBalance walletID s).2 = s ∧
    (getMonthlyStats walletID clock s).2 = s := by
  refine ⟨?_, rfl, rfl⟩
  simp only [checkAccount]
  cases s.wallets walletID <;> rfl

theorem apply_nonNegative (op : Op) (s : Store) (hs : nonNegative s)
    (hop : ∀ walletID a now, op = Op.deposit walletID a now → 0 < a) :
    nonNegative (op.apply s).2 := by
  cases op with
  | checkAccount target => simp only [Op.apply]; rw [(query_store s target fun _ => ⟨0⟩).1]; exact hs
  | getBalance target => exact hs
  | getMonthlyStats target clock => exact hs
  | deposit target a now =>
    have ha : 0 < a := hop target a now rfl
    constructor
    · intro k v hv
      simp only [Op.apply] at hv
      rcases deposit_wallets_cases s target a now with h | ⟨w, hw, _, h⟩
      · rw [h] at hv; exact hs.1 k v hv
      · rw [h] at hv
        by_cases hk : k = target
        · subst hk
          rw [mapSet_same] at hv
          cases hv
          have := hs.1 k w hw
          simp only
          linarith
        · rw [mapSet_other _ _ _ _ hk] at hv
          exact hs.1 k v hv
    · intro k e he
      rcases apply_history (Op.deposit target a now) s k with h | ⟨a', now', hop', _, h⟩
      · rw [h] at he; exact hs.2 k e he
      · rw [h, List.mem_append, List.mem_singleton] at he
        rcases he with he | he
        · exact hs.2 k e he
        · cases hop'
          rw [he]
          exact ha

theorem twoWallets_nonNegative (b1 b2 : ℚ) (h1 : 0 ≤ b1) (h2 : 0 ≤ b2) :
    nonNegative (twoWallets b1 b2) := by
  constructor
  · intro k w hw
    by_cases hk1 : k = "w1"
    · simp [twoWallets, hk1] at hw
      subst hw
      exact h1
    · by_cases hk2 : k = "w2"
      · simp [twoWallets, hk2] at hw
        subst hw
        exact h2
      · simp [twoWallets, hk1, hk2] at hw
  · intro k e he
    simp [sliceAt, twoWallets] at he

/-- C13, counterexample. From the store holding `w1` and `w2` at balance 0 with no
history, in which every balance is at least 0 and every recorded amount is above 0,
the single deposit of -5 on `w2` is accepted and leaves `w2` at balance -5 with an
entry of amount -5 in its history. -/
theorem negative_deposit_breaks_signs :
    nonNegative (twoWallets 0 0) ∧
    (run [Op.deposit "w2" (-5) (atSecond 7)] (twoWallets 0 0)).wallets "w2" =
      some { ID := "w2", Identified := false, Balance := -5 } ∧
    sliceAt (run [Op.deposit "w2" (-5) (atSecond 7)] (twoWallets 0 0)).history "w2" =
      [{ ID := "w2", Date := atSecond 7, Amount := -5 }] ∧
    ¬ nonNegative (run [Op.deposit "w2" (-5) (atSecond 7)] (twoWallets 0 0)) := by
  have hw : (twoWallets 0 0).wallets "w2" =
      some { ID := "w2", Identified := false, Balance := 0 } := by simp [twoWallets]
  have hfit : (0 : ℚ) + (-5) ≤
      maxBalance { ID := "w2", Identified := false, Balance := 0 } := by
    norm_num [maxBalance]
  have h1 : (run [Op.deposit "w2" (-5) (atSecond 7)] (twoWallets 0 0)).wallets "w2" =
      some { ID := "w2", Identified := false, Balance := -5 } := by
    simp only [run, List.foldl, Op.apply]
    rw [deposit_wallets_ok _ "w2" _ (-5) _ hw hfit, mapSet_same]
    norm_num
  refine ⟨twoWallets_nonNegative 0 0 (le_refl 0) (le_refl 0), h1, ?_, ?_⟩
  · simp only [run, List.foldl, Op.apply]
    rw [deposit_history_ok _ "w2" _ (-5) _ hw hfit]
    simp [sliceAt, mapSet_same, twoWallets]
  · intro hn
    have := hn.1 "w2" _ h1
    norm_num at this

/-- C13, amended. From a store in which every balance is at least 0 and every recorded
amount is above 0, after any sequence of operations in which every deposit carries an
amount above 0, every balance is still at least 0 and every recorded amount is still
above 0. -/
theorem positive_deposits_keep_signs (s : Store) (ops : List Op)
    (hs : nonNegative s) (hops : positiveDeposits ops) : nonNegative (run ops s) := by
  induction ops generalizing s with
  | nil => exact hs
  | cons op ops ih =>
    refine ih _ (apply_nonNegative op s hs ?_) ?_
    · intro k a now h
      exact hops k a now (by rw [h]; exact List.mem_cons_self _ _)
    · intro k a now h
      exact hops k a now (List.mem_cons_of_mem _ h)

theorem positive_deposits_keep_signs_witness :
    nonNegative (twoWallets 0 0) ∧
    positiveDeposits [Op.deposit "w2" 5000 (atSecond 7), Op.deposit "w1" 3 (atSecond 8)] ∧
    nonNegative (run [Op.deposit "w2" 5000 (atSecond 7), Op.deposit "w1" 3 (atSecond 8)]
      (twoWallets 0 0)) :=
  have hs : nonNegative (twoWallets 0 0) :=
    twoWallets_nonNegative 0 0 (le_refl 0) (le_refl 0)
  have hops : positiveDeposits
      [Op.deposit "w2" 5000 (atSecond 7), Op.deposit "w1" 3 (atSecond 8)] := by
    intro k a now h
    simp only [List.mem_cons, Op.deposit.injEq, List.mem_singleton, List.not_mem_nil,
      or_false] at h
    rcases h with ⟨_, h, _⟩ | ⟨_, h, _⟩ <;> rw [h] <;> norm_num
  ⟨hs, hops, positive_deposits_keep_signs _ _ hs hops⟩

/-! ## Month bounds -/

/-- The year-of-era formula on the day `36524 c + 1461 k + 365 j + doy` of the era. -/
theorem yearOfEra_aux (c k j doy doe : Int) (hc0 : 0 ≤ c) (hc1 : c ≤ 3) (hk0 : 0 ≤ k)
    (hk1 : k ≤ 24) (hj0 : 0 ≤ j) (hj1 : j ≤ 3) (hd0 : 0 ≤ doy)
    (hd : doy ≤ 364 ∨ (doy = 365 ∧ j = 3 ∧ (k ≠ 24 ∨ c = 3)))
    (hdoe : doe = 36524 * c + 1461 * k + 365 * j + doy) :
    (doe - doe / 1460 + doe / 36524 - doe / 146096) / 365 = 100 * c + 4 * k + j := by
  obtain ⟨r, hr⟩ : ∃ r, r = 1461 * k + 365 * j + doy := ⟨_, rfl⟩
  have hr0 : 0 ≤ r := by omega
  have hr1 : r ≤ 36523 ∨ (c = 3 ∧ r = 36524) := by omega
  have hb : doe / 36524 - doe / 146096 = c := by
    have h1 : doe = 36524 * c + r := by omega
    rcases hr1 with h | ⟨h3, h⟩
    · have : doe / 36524 = c := by omega
      have : doe / 146096 = 0 := by omega
      omega
    · subst h3
      have : doe = 146096 := by omega
      subst this
      norm_num
  obtain ⟨q, hq⟩ : ∃ q, q = 365 * j + doy := ⟨_, rfl⟩
  have hq0 : 0 ≤ q := by omega
  have hq1 : q ≤ 1460 := by omega
  have ha : doe / 1460 = 25 * c + k + (24 * c + k + q) / 1460 := by
    have h1 : doe = 1460 * (25 * c + k) + (24 * c + k + q) := by omega
    rw [h1]
    omega
  have hdel : (24 * c + k + q) / 1460 = 0 ∨ (24 * c + k + q) / 1460 = 1 := by omega
  have hnum : doe - doe / 1460 + doe / 36524 - doe / 146096 =
      365 * (100 * c + 4 * k) + (q - (24 * c + k + q) / 1460) := by omega
  rw [hnum]
  have hj : (q - (24 * c + k + q) / 1460) / 365 = j := by omega
  omega

/-- The year-of-era formula recovers the year `y` from any day of that year. -/
theorem yearOfEra_eq (y doy : Int) (hy0 : 0 ≤ y) (hy1 : y ≤ 399) (hd0 : 0 ≤ doy)
    (hd : doy ≤ 364 ∨ (doy = 365 ∧ y % 4 = 3 ∧ (y % 100 ≠ 99 ∨ y = 399))) :
    ((365 * y + y / 4 - y / 100 + doy) - (365 * y + y / 4 - y / 100 + doy) / 1460 +
      (365 * y + y / 4 - y / 100 + doy) / 36524 -
      (365 * y + y / 4 - y / 100 + doy) / 146096) / 365 = y := by
  have h := yearOfEra_aux (y / 100) (y % 100 / 4) (y % 4) doy
    (365 * y + y / 4 - y / 100 + doy) (by omega) (by omega) (by omega) (by omega)
    (by omega) (by omega) hd0 (by omega) (by omega)
  rw [h]
  omega

/-- Every day of an era lies in one of its 400 years. -/
theorem era_decomp (doe : Int) (h0 : 0 ≤ doe) (h1 : doe < 146097) :
    ∃ y doy : Int, 0 ≤ y ∧ y ≤ 399 ∧ 0 ≤ doy ∧
      (doy ≤ 364 ∨ (doy = 365 ∧ y % 4 = 3 ∧ (y % 100 ≠ 99 ∨ y = 399))) ∧
      doe = 365 * y + y / 4 - y / 100 + doy := by
  obtain ⟨c, hc⟩ : ∃ c, c = min (doe / 36524) 3 := ⟨_, rfl⟩
  obtain ⟨r, hr⟩ : ∃ r, r = doe - 36524 * c := ⟨_, rfl⟩
  obtain ⟨k, hk⟩ : ∃ k, k = r / 1461 := ⟨_, rfl⟩
  obtain ⟨q, hq⟩ : ∃ q, q = r - 1461 * k := ⟨_, rfl⟩
  obtain ⟨j, hj⟩ : ∃ j, j = min (q / 365) 3 := ⟨_, rfl⟩
  have hc0 : 0 ≤ c ∧ c ≤ 3 := by omega
  have hr0 : 0 ≤ r ∧ (r ≤ 36523 ∨ (c = 3 ∧ r = 36524)) := by omega
  have hk0 : 0 ≤ k ∧ k ≤ 24 := by omega
  have hq0 : 0 ≤ q ∧ q ≤ 1460 ∧ (q = 1460 → k ≠ 24 ∨ c = 3) := by omega
  have hj0 : 0 ≤ j ∧ j ≤ 3 := by omega
  refine ⟨100 * c + 4 * k + j, q - 365 * j, by omega, by omega, by omega, ?_, ?_⟩
  · omega
  · omega

/-- The civil date of the day `doy` of year `y` of era `era`. -/
theorem civilFromDays_of (z era y doy : Int)
    (hz : z + 719468 = era * 146097 + (365 * y + y / 4 - y / 100 + doy))
    (hy0 : 0 ≤ y) (hy1 : y ≤ 399) (hd0 : 0 ≤ doy)
    (hd : doy ≤ 364 ∨ (doy = 365 ∧ y % 4 = 3 ∧ (y % 100 ≠ 99 ∨ y = 399))) :
    civilFromDays z =
      (if (if (5 * doy + 2) / 153 < 10 then (5 * doy + 2) / 153 + 3
            else (5 * doy + 2) / 153 - 9) ≤ 2 then y + era * 400 + 1 else y + era * 400,
       if (5 * doy + 2) / 153 < 10 then (5 * doy + 2) / 153 + 3 else (5 * doy + 2) / 153 - 9,
       doy - (153 * ((5 * doy + 2) / 153) + 2) / 5 + 1) := by
  have hera : (z + 719468) / 146097 = era := by omega
  have hdoe : z + 719468 - era * 146097 = 365 * y + y / 4 - y / 100 + doy := by omega
  have hyoe := yearOfEra_eq y doy hy0 hy1 hd0 hd
  have hdoy : 365 * y + y / 4 - y / 100 + doy - (365 * y + y / 4 - y / 100) = doy := by
    omega
  simp only [civilFromDays, hera, hdoe, hyoe, hdoy]

/-- The day number of the day `day` of month `mp` (March being 0) of year `y` of `era`. -/
theorem daysFromCivil_of (era y mp day : Int) (hy0 : 0 ≤ y) (hy1 : y ≤ 399)
    (hm0 : 0 ≤ mp) (hm1 : mp ≤ 11) :
    daysFromCivil
        (if (if mp < 10 then mp + 3 else mp - 9) ≤ 2 then y + era * 400 + 1
          else y + era * 400)
        (if mp < 10 then mp + 3 else mp - 9) day =
      era * 146097 + (365 * y + y / 4 - y / 100) + (153 * mp + 2) / 5 + day - 1 - 719468 := by
  unfold daysFromCivil
  by_cases h : mp < 10
  · have h2 : ¬ (mp + 3 ≤ 2) := by omega
    have h3 : mp + 3 > 2 := by omega
    simp only [h, if_true, h2, if_false, h3]
    have : mp + 3 - 3 = mp := by omega
    rw [this]
    have he : (y + era * 400) / 400 = era := by omega
    rw [he]
    omega
  · have h2 : mp - 9 ≤ 2 := by omega
    have h3 : ¬ (mp - 9 > 2) := by omega
    simp only [h, if_false, h2, if_true, h3]
    have : mp - 9 + 9 = mp := by omega
    rw [this]
    have : y + era * 400 + 1 - 1 = y + era * 400 := by omega
    rw [this]
    have he : (y + era * 400) / 400 = era := by omega
    rw [he]
    omega

/-- The day on which the instant built by `Date` falls, for a time of day taken from
an instant by `Clock` and `Nanosecond`. -/
theorem Date_dayNumber (t : Time) (year month day : Int) :
    (AlifWallet.Date year month day t.Clock.1 t.Clock.2.1 t.Clock.2.2 t.Nanosecond).dayNumber =
      daysFromCivil (year + (month - 1) / 12) ((month - 1) % 12 + 1) 1 + (day - 1) := by
  simp only [AlifWallet.Date, Time.dayNumber, Time.Clock, Time.Nanosecond, Time.nanosOfDay,
    nanosPerDay, secondsPerDay, nanosPerSecond]
  generalize daysFromCivil (year + (month - 1) / 12) ((month - 1) % 12 + 1) 1 + (day - 1) = D
  generalize t.nanos = n
  omega

theorem AddDate_Date (t : Time) (years months days : Int) :
    (t.AddDate years months days).Date =
      civilFromDays (daysFromCivil (t.Date.1 + years + (t.Date.2.1 + months - 1) / 12)
        ((t.Date.2.1 + months - 1) % 12 + 1) 1 + (t.Date.2.2 + days - 1)) := by
  have h := Date_dayNumber t (t.Date.1 + years) (t.Date.2.1 + months) (t.Date.2.2 + days)
  simp only [Time.AddDate, Time.Date] at h ⊢
  rw [← h]

/-- Every day number decomposes into era, year of era and day of year, which give the
civil date. -/
theorem civil_decomp (z : Int) :
    ∃ era y doy mp : Int, 0 ≤ y ∧ y ≤ 399 ∧ 0 ≤ doy ∧
      (doy ≤ 364 ∨ (doy = 365 ∧ y % 4 = 3 ∧ (y % 100 ≠ 99 ∨ y = 399))) ∧
      0 ≤ mp ∧ mp ≤ 11 ∧ (153 * mp + 2) / 5 ≤ doy ∧
      (doy < (153 * (mp + 1) + 2) / 5) ∧
      z + 719468 = era * 146097 + (365 * y + y / 4 - y / 100 + doy) ∧
      civilFromDays z =
        (if (if mp < 10 then mp + 3 else mp - 9) ≤ 2 then y + era * 400 + 1
          else y + era * 400,
         if mp < 10 then mp + 3 else mp - 9,
         doy - (153 * mp + 2) / 5 + 1) := by
  obtain ⟨y, doy, hy0, hy1, hd0, hd, hdoe⟩ :=
    era_decomp ((z + 719468) % 146097) (by omega) (by omega)
  have hz : z + 719468 = (z + 719468) / 146097 * 146097 +
      (365 * y + y / 4 - y / 100 + doy) := by omega
  refine ⟨(z + 719468) / 146097, y, doy, (5 * doy + 2) / 153, hy0, hy1, hd0, hd,
    by omega, by omega, by omega, by omega, hz, ?_⟩
  exact civilFromDays_of z _ y doy hz hy0 hy1 hd0 hd

/-- The first day of the month of a day has the same year and month and day 1. -/
theorem civil_first_of_month (z : Int) :
    civilFromDays (daysFromCivil
        ((civilFromDays z).1 + 0 + ((civilFromDays z).2.1 + 0 - 1) / 12)
        (((civilFromDays z).2.1 + 0 - 1) % 12 + 1) 1 +
        ((civilFromDays z).2.2 + (-(civilFromDays z).2.2 + 1) - 1)) =
      ((civilFromDays z).1, (civilFromDays z).2.1, 1) := by
  obtain ⟨era, y, doy, mp, hy0, hy1, hd0, hd, hm0, hm1, hlo, hhi, hz, hciv⟩ := civil_decomp z
  rw [hciv]
  simp only
  have hnorm1 : ((if mp < 10 then mp + 3 else mp - 9) + 0 - 1) / 12 = 0 := by
    split_ifs <;> omega
  have hnorm2 : ((if mp < 10 then mp + 3 else mp - 9) + 0 - 1) % 12 + 1 =
      (if mp < 10 then mp + 3 else mp - 9) := by
    split_ifs <;> omega
  rw [hnorm1, hnorm2, add_zero, add_zero, daysFromCivil_of era y mp 1 hy0 hy1 hm0 hm1]
  have hz2 : era * 146097 + (365 * y + y / 4 - y / 100) + (153 * mp + 2) / 5 + 1 - 1 - 719468 +
      (doy - (153 * mp + 2) / 5 + 1 + (-(doy - (153 * mp + 2) / 5 + 1) + 1) - 1) + 719468 =
      era * 146097 + (365 * y + y / 4 - y / 100 + (153 * mp + 2) / 5) := by omega
  rw [civilFromDays_of _ era y ((153 * mp + 2) / 5) hz2 hy0 hy1 (by omega) (by omega)]
  have hmp : (5 * ((153 * mp + 2) / 5) + 2) / 153 = mp := by omega
  rw [hmp]
  simp

/-- The day before the first day of the next month has the same year and month and is
the last day of the month. -/
theorem civil_last_of_month (z : Int) :
    civilFromDays (daysFromCivil
        ((civilFromDays z).1 + 0 + ((civilFromDays z).2.1 + 1 - 1) / 12)
        (((civilFromDays z).2.1 + 1 - 1) % 12 + 1) 1 +
        ((civilFromDays z).2.2 + -(civilFromDays z).2.2 - 1)) =
      ((civilFromDays z).1, (civilFromDays z).2.1,
        daysIn (civilFromDays z).1 (civilFromDays z).2.1) := by
  obtain ⟨era, y, doy, mp, hy0, hy1, hd0, hd, hm0, hm1, hlo, hhi, hz, hciv⟩ := civil_decomp z
  rw [hciv]
  simp only
  by_cases h11 : mp ≤ 10
  · have hpy : (if (if mp < 10 then mp + 3 else mp - 9) ≤ 2 then y + era * 400 + 1
          else y + era * 400) + 0 + ((if mp < 10 then mp + 3 else mp - 9) + 1 - 1) / 12 =
        (if (if mp + 1 < 10 then mp + 1 + 3 else mp + 1 - 9) ≤ 2 then y + era * 400 + 1
          else y + era * 400) := by
      split_ifs <;> omega
    have hpm : ((if mp < 10 then mp + 3 else mp - 9) + 1 - 1) % 12 + 1 =
        (if mp + 1 < 10 then mp + 1 + 3 else mp + 1 - 9) := by
      split_ifs <;> omega
    rw [hpy, hpm, daysFromCivil_of era y (mp + 1) 1 hy0 hy1 (by omega) (by omega)]
    have hz2 : era * 146097 + (365 * y + y / 4 - y / 100) + (153 * (mp + 1) + 2) / 5 + 1 - 1 -
        719468 + (doy - (153 * mp + 2) / 5 + 1 + -(doy - (153 * mp + 2) / 5 + 1) - 1) + 719468 =
        era * 146097 + (365 * y + y / 4 - y / 100 + ((153 * (mp + 1) + 2) / 5 - 1)) := by
      omega
    rw [civilFromDays_of _ era y ((153 * (mp + 1) + 2) / 5 - 1) hz2 hy0 hy1 (by omega)
      (by omega)]
    have hmp : (5 * ((153 * (mp + 1) + 2) / 5 - 1) + 2) / 153 = mp := by omega
    rw [hmp]
    have hlen : (153 * (mp + 1) + 2) / 5 - 1 - (153 * mp + 2) / 5 + 1 =
        daysIn (if (if mp < 10 then mp + 3 else mp - 9) ≤ 2 then y + era * 400 + 1
          else y + era * 400) (if mp < 10 then mp + 3 else mp - 9) := by
      interval_cases mp <;> simp [daysIn]
    rw [hlen]
  · have hmp11 : mp = 11 := by omega
    subst hmp11
    norm_num only [if_true, if_false]
    rw [add_zero, add_zero]
    by_cases hleap : y % 4 = 3 ∧ (y % 100 ≠ 99 ∨ y = 399)
    · have hz2 : daysFromCivil (y + era * 400 + 1) 3 1 +
          (doy - 337 + 1 + -(doy - 337 + 1) - 1) + 719468 =
          era * 146097 + (365 * y + y / 4 - y / 100 + 365) := by
        simp only [daysFromCivil, show ¬ ((3 : Int) ≤ 2) by norm_num, if_false,
          show ((3 : Int) > 2) by norm_num, if_true]
        omega
      rw [civilFromDays_of _ era y 365 hz2 hy0 hy1 (by omega) (Or.inr ⟨rfl, hleap⟩)]
      have hl : isLeap (y + era * 400 + 1) = true := by
        simp only [isLeap, decide_eq_true_eq]
        omega
      simp [daysIn, hl]
    · have hz2 : daysFromCivil (y + era * 400 + 1) 3 1 +
          (doy - 337 + 1 + -(doy - 337 + 1) - 1) + 719468 =
          era * 146097 + (365 * y + y / 4 - y / 100 + 364) := by
        simp only [daysFromCivil, show ¬ ((3 : Int) ≤ 2) by norm_num, if_false,
          show ((3 : Int) > 2) by norm_num, if_true]
        omega
      rw [civilFromDays_of _ era y 364 hz2 hy0 hy1 (by omega) (Or.inl (le_refl _))]
      have hl : isLeap (y + era * 400 + 1) = false := by
        simp only [isLeap, decide_eq_false_iff_not]
        omega
      simp [daysIn, hl]

/-- C14. For every instant d, BeginningOfMonth(d) has the year and month of d and day of
month 1, and EndOfMonth(d) has the year and month of d and, as day of month, the
number of days of that month (28 or 29 for February by the leap-year rule, 30 or 31
otherwise); the month of d lies in 1..12. -/
theorem month_bounds_are_first_and_last_day (d : Time) :
    (BeginningOfMonth d).Year = d.Year ∧ (BeginningOfMonth d).Month = d.Month ∧
    (BeginningOfMonth d).Day = 1 ∧
    (EndOfMonth d).Year = d.Year ∧ (EndOfMonth d).Month = d.Month ∧
    (EndOfMonth d).Day = daysIn d.Year d.Month ∧
    1 ≤ d.Month ∧ d.Month ≤ 12 := by
  have hb : (BeginningOfMonth d).Date = (d.Date.1, d.Date.2.1, 1) := by
    rw [BeginningOfMonth, AddDate_Date]
    exact civil_first_of_month d.dayNumber
  have he : (EndOfMonth d).Date = (d.Date.1, d.Date.2.1, daysIn d.Date.1 d.Date.2.1) := by
    rw [EndOfMonth, AddDate_Date]
    exact civil_last_of_month d.dayNumber
  have hm : 1 ≤ d.Date.2.1 ∧ d.Date.2.1 ≤ 12 := by
    obtain ⟨era, y, doy, mp, _, _, _, _, hm0, hm1, _, _, _, hciv⟩ := civil_decomp d.dayNumber
    rw [Time.Date, hciv]
    simp only
    split_ifs <;> omega
  simp only [Time.Year, Time.Month, Time.Day, hb, he]
  exact ⟨trivial, trivial, trivial, trivial, trivial, trivial, hm.1, hm.2⟩

/-! ## Malformed payloads -/

/-- C15, behaviour of the code at the failing inputs. A decoded payload without
`wallet_id`, with a `wallet_id` that is a number, without `amount`, or with an `amount`
that is a string makes depositHandler abort on the type assertion at main.go:90-91;
a payload without `wallet_id` does the same to getBalanceHandler (line 164) and
getMonthlyStatsHandler (line 131).  No response is written; the store is unchanged. -/
theorem malformed_payload_faults (s : Store) (now : Time) (clock : Nat → Time) :
    depositPayload (fun _ => none) now s = (.fault, s) ∧
    depositPayload (fun k => if k = "wallet_id" then some (.number 7)
      else if k = "amount" then some (.number 5) else none) now s = (.fault, s) ∧
    depositPayload (fun k => if k = "wallet_id" then some (.string "w1") else none) now s =
      (.fault, s) ∧
    depositPayload (fun k => if k = "wallet_id" then some (.string "w1")
      else if k = "amount" then some (.string "5") else none) now s = (.fault, s) ∧
    getBalancePayload (fun _ => none) s = (.fault, s) ∧
    getBalancePayload (fun k => if k = "wallet_id" then some (.number 7) else none) s =
      (.fault, s) ∧
    getMonthlyStatsPayload (fun _ => none) clock s = (.fault, s) ∧
    getMonthlyStatsPayload (fun k => if k = "wallet_id" then some .null else none) clock s =
      (.fault, s) := by
  refine ⟨rfl, ?_, ?_, ?_, rfl, ?_, rfl, ?_⟩
  · simp [depositPayload, assertString]
  · simp [depositPayload, assertString, assertFloat64]
  · simp [depositPayload, assertString, assertFloat64]
  · simp [getBalancePayload, assertString]
  · simp [getMonthlyStatsPayload, assertString]

/-! ## Frame of deposit and the two lookups -/

/-- C16. For every store and every deposit on wallet `walletID`, accepted or not: if the
wallet exists it is still stored afterwards with the same id and identified flag; the
ids present in the wallet map are the same before and after; and every other id has
the same wallet and the same history as before. -/
theorem deposit_changes_only_target_balance (s : Store) (walletID : String) (a : ℚ)
    (now : Time) :
    (∀ w, s.wallets walletID = some w →
      ∃ w1, (deposit walletID a now s).2.wallets walletID = some w1 ∧
        w1.ID = w.ID ∧ w1.Identified = w.Identified) ∧
    (∀ k, ((deposit walletID a now s).2.wallets k).isSome = (s.wallets k).isSome) ∧
    (∀ k, k ≠ walletID →
      (deposit walletID a now s).2.wallets k = s.wallets k ∧
      (deposit walletID a now s).2.history k = s.history k) := by
  cases hw : s.wallets walletID with
  | none =>
    rw [deposit_absent s walletID a now hw]
    refine ⟨?_, fun _ => rfl, fun _ _ => ⟨rfl, rfl⟩⟩
    intro w h
    cases h
  | some w0 =>
    by_cases hfit : w0.Balance + a ≤ maxBalance w0
    · rw [deposit_wallets_ok s walletID w0 a now hw hfit,
        deposit_history_ok s walletID w0 a now hw hfit]
      refine ⟨?_, ?_, ?_⟩
      · intro w h
        cases h
        exact ⟨_, mapSet_same _ _ _, rfl, rfl⟩
      · intro k
        by_cases hk : k = walletID
        · subst hk
          rw [mapSet_same, hw]
          rfl
        · rw [mapSet_other _ _ _ _ hk]
      · intro k hk
        exact ⟨mapSet_other _ _ _ _ hk, mapSet_other _ _ _ _ hk⟩
    · rw [deposit_over s walletID w0 a now hw (not_le.mp hfit)]
      exact ⟨fun w h => ⟨w, hw ▸ h, rfl, rfl⟩, fun _ => rfl, fun _ _ => ⟨rfl, rfl⟩⟩

theorem deposit_changes_only_target_balance_witness :
    (twoWallets 7 0).wallets "w2" = some { ID := "w2", Identified := false, Balance := 0 } ∧
    (∃ w1, (deposit "w2" 5000 (atSecond 7) (twoWallets 7 0)).2.wallets "w2" = some w1 ∧
      w1.ID = "w2" ∧ w1.Identified = false) ∧
    "w1" ≠ "w2" ∧
    ((deposit "w2" 5000 (atSecond 7) (twoWallets 7 0)).2.wallets "w1" =
        (twoWallets 7 0).wallets "w1" ∧
      (deposit "w2" 5000 (atSecond 7) (twoWallets 7 0)).2.history "w1" =
        (twoWallets 7 0).history "w1") :=
  have hw : (twoWallets 7 0).wallets "w2" =
      some { ID := "w2", Identified := false, Balance := 0 } := by simp [twoWallets]
  ⟨hw,
    (deposit_changes_only_target_balance (twoWallets 7 0) "w2" 5000 (atSecond 7)).1 _ hw,
    by decide,
    (deposit_changes_only_target_balance (twoWallets 7 0) "w2" 5000 (atSecond 7)).2.2 "w1"
      (by decide)⟩

/-- C17. getBalance answers 200 with the stored balance of the wallet when the id is
present, and with the balance 0 when it is absent; in both cases the store is returned
as it was, so an absent id is still absent afterwards. -/
theorem getBalance_stored_or_zero (s : Store) (walletID : String) :
    (∀ w, s.wallets walletID = some w →
      getBalance walletID s = (⟨200, Body.balance w.Balance⟩, s)) ∧
    (s.wallets walletID = none →
      getBalance walletID s = (⟨200, Body.balance 0⟩, s) ∧
      (getBalance walletID s).2.wallets walletID = none) := by
  constructor
  · intro w hw
    simp [getBalance, hw, httpOK]
  · intro hw
    simp [getBalance, hw, httpOK]

theorem getBalance_stored_or_zero_witness :
    (twoWallets 7 0).wallets "w1" = some { ID := "w1", Identified := true, Balance := 7 } ∧
    getBalance "w1" (twoWallets 7 0) = (⟨200, Body.balance 7⟩, twoWallets 7 0) ∧
    (twoWallets 7 0).wallets "ghost" = none ∧
    (getBalance "ghost" (twoWallets 7 0) = (⟨200, Body.balance 0⟩, twoWallets 7 0) ∧
      (getBalance "ghost" (twoWallets 7 0)).2.wallets "ghost" = none) :=
  have h1 : (twoWallets 7 0).wallets "w1" =
      some { ID := "w1", Identified := true, Balance := 7 } := by simp [twoWallets]
  have h2 : (twoWallets 7 0).wallets "ghost" = none := by simp [twoWallets]
  ⟨h1, (getBalance_stored_or_zero (twoWallets 7 0) "w1").1 _ h1,
    h2, (getBalance_stored_or_zero (twoWallets 7 0) "ghost").2 h2⟩

/-- C18. checkAccount answers 200 with the text "Wallet <id> exists" exactly when the id
is present in the wallet map, and answers 404 with the text "Wallet does not exist"
when it is absent. -/
theorem checkAccount_exists_iff (s : Store) (walletID : String) :
    ((checkAccount walletID s).1 = ⟨200, Body.text ("Wallet " ++ walletID ++ " exists")⟩ ↔
      ∃ w, s.wallets walletID = some w) ∧
    (s.wallets walletID = none →
      (checkAccount walletID s).1 = ⟨404, Body.text "Wallet does not exist\n"⟩) := by
  cases hw : s.wallets walletID with
  | none =>
    simp [checkAccount, hw, httpError]
  | some w =>
    simp [checkAccount, hw, httpOK]

theorem checkAccount_exists_iff_witness :
    (twoWallets 7 0).wallets "ghost" = none ∧
    (checkAccount "ghost" (twoWallets 7 0)).1 = ⟨404, Body.text "Wallet does not exist\n"⟩ ∧
    (checkAccount "w1" (twoWallets 7 0)).1 = ⟨200, Body.text ("Wallet " ++ "w1" ++ " exists")⟩ :=
  have h : (twoWallets 7 0).wallets "ghost" = none := by simp [twoWallets]
  ⟨h, (checkAccount_exists_iff (twoWallets 7 0) "ghost").2 h,
    (checkAccount_exists_iff (twoWallets 7 0) "w1").1.mpr
      ⟨{ ID := "w1", Identified := true, Balance := 7 }, by simp [twoWallets]⟩⟩

/-! ## Balance and history in step -/

theorem sumAmounts_append (l : List OperationsHistory) (e : OperationsHistory) :
    sumAmounts (l ++ [e]) = sumAmounts l + e.Amount := by
  simp [sumAmounts, List.foldl_append]

/-- One operation keeps the balance of `walletID` equal to the sum of its history and
lengthens that history by one exactly when it is an accepted deposit on `walletID`. -/
theorem apply_in_step (op : Op) (s : Store) (walletID : String)
    (h : ∃ w, s.wallets walletID = some w ∧
      w.Balance = sumAmounts (sliceAt s.history walletID)) :
    (∃ w, (op.apply s).2.wallets walletID = some w ∧
      w.Balance = sumAmounts (sliceAt (op.apply s).2.history walletID)) ∧
    (sliceAt (op.apply s).2.history walletID).length =
      (sliceAt s.history walletID).length + acceptedOn walletID [op] s := by
  cases op with
  | checkAccount target =>
    simp only [Op.apply, acceptedOn, (query_store s target fun _ => ⟨0⟩).1]
    exact ⟨h, rfl⟩
  | getBalance target => exact ⟨h, rfl⟩
  | getMonthlyStats target clock => exact ⟨h, rfl⟩
  | deposit target a now =>
    simp only [Op.apply, acceptedOn, add_zero]
    cases hw : s.wallets target with
    | none =>
      simp only [deposit_absent s target a now hw, httpError]
      exact ⟨h, by simp⟩
    | some wt =>
      by_cases hfit : wt.Balance + a ≤ maxBalance wt
      · simp only [deposit_status_ok s target wt a now hw hfit,
          deposit_wallets_ok s target wt a now hw hfit,
          deposit_history_ok s target wt a now hw hfit]
        by_cases hk : target = walletID
        · subst hk
          obtain ⟨w, hw1, hw2⟩ := h
          rw [hw] at hw1
          cases hw1
          refine ⟨⟨_, mapSet_same _ _ _, ?_⟩, ?_⟩
          · simp only [sliceAt, mapSet_same, Option.getD_some]
            rw [sumAmounts_append]
            simp only [sliceAt] at hw2
            rw [hw2]
          · simp [sliceAt, mapSet_same, httpOK]
        · have hk2 : walletID ≠ target := fun e => hk e.symm
          obtain ⟨w, hw1, hw2⟩ := h
          refine ⟨⟨w, ?_, ?_⟩, ?_⟩
          · rw [mapSet_other _ _ _ _ hk2]; exact hw1
          · simp only [sliceAt, mapSet_other _ _ _ _ hk2]
            exact hw2
          · simp [sliceAt, mapSet_other _ _ _ _ hk2, hk]
      · simp only [deposit_over s target wt a now hw (not_le.mp hfit), httpError]
        exact ⟨h, by simp⟩

theorem run_in_step (ops : List Op) (s : Store) (walletID : String)
    (h : ∃ w, s.wallets walletID = some w ∧
      w.Balance = sumAmounts (sliceAt s.history walletID)) :
    (∃ w, (run ops s).wallets walletID = some w ∧
      w.Balance = sumAmounts (sliceAt (run ops s).history walletID)) ∧
    (sliceAt (run ops s).history walletID).length =
      (sliceAt s.history walletID).length + acceptedOn walletID ops s := by
  induction ops generalizing s with
  | nil => exact ⟨h, rfl⟩
  | cons op ops ih =>
    obtain ⟨h1, h2⟩ := apply_in_step op s walletID h
    obtain ⟨h3, h4⟩ := ih (op.apply s).2 h1
    refine ⟨h3, ?_⟩
    have h5 : run (op :: ops) s = run ops (op.apply s).2 := rfl
    rw [h5, h4, h2]
    simp only [acceptedOn, add_zero]
    omega

/-- C19. For a wallet that starts with balance 0 and an empty history, after any
sequence of operations run one after another its balance equals the sum of the amounts
in its history, added in insertion order from 0, and the length of its history equals
the number of deposits on it that were accepted. Hence, when every entry of its history
lies strictly inside the monthly window of `now`, getMonthlyStats (with the clock
reading `now`) reports that length and an amount equal to the balance getBalance
reports. -/
theorem balance_matches_history (s : Store) (ops : List Op) (walletID : String)
    (w : Wallet) (now : Time) (hw : s.wallets walletID = some w) (hb : w.Balance = 0)
    (hh : sliceAt s.history walletID = []) :
    ∃ w1, (run ops s).wallets walletID = some w1 ∧
      w1.Balance = (sliceAt (run ops s).history walletID).foldl
        (fun acc e => acc + e.Amount) 0 ∧
      (sliceAt (run ops s).history walletID).length = acceptedOn walletID ops s ∧
      ((∀ e ∈ sliceAt (run ops s).history walletID,
          (BeginningOfMonth now).nanos < e.Date.nanos ∧
          e.Date.nanos < (EndOfMonth now).nanos) →
        (getMonthlyStats walletID (fun _ => now) (run ops s)).1 =
          ⟨200, Body.stats { Count := acceptedOn walletID ops s, Amount := w1.Balance }⟩ ∧
        (getBalance walletID (run ops s)).1 = ⟨200, Body.balance w1.Balance⟩) := by
  have h0 : ∃ w0, s.wallets walletID = some w0 ∧
      w0.Balance = sumAmounts (sliceAt s.history walletID) :=
    ⟨w, hw, by rw [hh, hb]; rfl⟩
  obtain ⟨⟨w1, h1, h2⟩, h3⟩ := run_in_step ops s walletID h0
  rw [hh, List.length_nil, Nat.zero_add] at h3
  refine ⟨w1, h1, h2, h3, ?_⟩
  intro hwin
  have hfilter : (sliceAt (run ops s).history walletID).filter (fun e =>
      decide ((BeginningOfMonth now).nanos < e.Date.nanos ∧
        e.Date.nanos < (EndOfMonth now).nanos)) = sliceAt (run ops s).history walletID := by
    rw [List.filter_eq_self]
    intro e he
    exact decide_eq_true (hwin e he)
  constructor
  · simp only [getMonthlyStats, monthlyLoop_const, httpOK, List.nil_append, hfilter, h3]
    rw [h2]
    rfl
  · simp [getBalance, h1, httpOK]

theorem balance_matches_history_witness :
    (twoWallets 0 0).wallets "w2" = some { ID := "w2", Identified := false, Balance := 0 } ∧
    sliceAt (twoWallets 0 0).history "w2" = [] ∧
    (∀ e ∈ sliceAt (run [Op.deposit "w2" 5000 (atSecond 1710061200)]
        (twoWallets 0 0)).history "w2",
      (BeginningOfMonth (atSecond 1710496800)).nanos < e.Date.nanos ∧
      e.Date.nanos < (EndOfMonth (atSecond 1710496800)).nanos) ∧
    ∃ w1, (run [Op.deposit "w2" 5000 (atSecond 1710061200)] (twoWallets 0 0)).wallets "w2" =
        some w1 ∧
      w1.Balance = (sliceAt (run [Op.deposit "w2" 5000 (atSecond 1710061200)]
        (twoWallets 0 0)).history "w2").foldl (fun acc e => acc + e.Amount) 0 ∧
      (sliceAt (run [Op.deposit "w2" 5000 (atSecond 1710061200)]
        (twoWallets 0 0)).history "w2").length =
        acceptedOn "w2" [Op.deposit "w2" 5000 (atSecond 1710061200)] (twoWallets 0 0) ∧
      ((∀ e ∈ sliceAt (run [Op.deposit "w2" 5000 (atSecond 1710061200)]
          (twoWallets 0 0)).history "w2",
          (BeginningOfMonth (atSecond 1710496800)).nanos < e.Date.nanos ∧
          e.Date.nanos < (EndOfMonth (atSecond 1710496800)).nanos) →
        (getMonthlyStats "w2" (fun _ => atSecond 1710496800)
          (run [Op.deposit "w2" 5000 (atSecond 1710061200)] (twoWallets 0 0))).1 =
          ⟨200, Body.stats
            { Count := acceptedOn "w2" [Op.deposit "w2" 5000 (atSecond 1710061200)]
                (twoWallets 0 0),
              Amount := w1.Balance }⟩ ∧
        (getBalance "w2"
          (run [Op.deposit "w2" 5000 (atSecond 1710061200)] (twoWallets 0 0))).1 =
          ⟨200, Body.balance w1.Balance⟩) :=
  have hw : (twoWallets 0 0).wallets "w2" =
      some { ID := "w2", Identified := false, Balance := 0 } := by simp [twoWallets]
  have hh : sliceAt (twoWallets 0 0).history "w2" = [] := by simp [sliceAt, twoWallets]
  have hwin : ∀ e ∈ sliceAt (run [Op.deposit "w2" 5000 (atSecond 1710061200)]
        (twoWallets 0 0)).history "w2",
      (BeginningOfMonth (atSecond 1710496800)).nanos < e.Date.nanos ∧
      e.Date.nanos < (EndOfMonth (atSecond 1710496800)).nanos := by
    intro e he
    simp only [run, List.foldl, Op.apply] at he
    rw [deposit_history_ok _ "w2" { ID := "w2", Identified := false, Balance := 0 } 5000 _ hw
      (by norm_num [maxBalance])] at he
    simp only [sliceAt, mapSet_same, Option.getD_some, twoWallets, Option.getD_none,
      List.nil_append, List.mem_singleton] at he
    rw [he]
    decide
  ⟨hw, hh, hwin,
    balance_matches_history (twoWallets 0 0) [Op.deposit "w2" 5000 (atSecond 1710061200)]
      "w2" { ID := "w2", Identified := false, Balance := 0 } (atSecond 1710496800) hw rfl hh⟩

/-! ## Queries -/

/-- C20. For every store, wallet id (present or absent) and clock, checkAccount,
getBalance and getMonthlyStats return the store exactly as they received it, wallet map
and history map alike; and the same query put again to the store it returned gives
the same response and the same store. -/
theorem queries_are_read_only (s : Store) (walletID : String) (clock : Nat → Time) :
    (checkAccount walletID s).2 = s ∧
    (getBalance walletID s).2 = s ∧
    (getMonthlyStats walletID clock s).2 = s ∧
    checkAccount walletID (checkAccount walletID s).2 = checkAccount walletID s ∧
    getBalance walletID (getBalance walletID s).2 = getBalance walletID s ∧
    getMonthlyStats walletID clock (getMonthlyStats walletID clock s).2 =
      getMonthlyStats walletID clock s := by
  have h := query_store s walletID clock
  refine ⟨h.1, h.2.1, h.2.2, ?_, ?_, ?_⟩
  · rw [h.1]
  · rw [h.2.1]
  · rw [h.2.2]

end AlifWallet
